import Mathlib

/-!
Verification development for the claude_code_bridge request broker.

The definitions below are a shallow embedding of the Python sources:
  * src/lib/askd/adapters/claude.py  (pane-log state machine, reply
    extraction, post-processing),
  * src/lib/laskd_daemon.py          (structured wait loop, deadline),
  * src/lib/pane_registry.py         (registry upsert).

Strings are modelled as `List Char`.  Python whitespace tests (`str.strip`,
regex `\s`) are modelled over the ASCII whitespace characters; all protocol
text is ASCII.  Machine time is modelled in integer milliseconds.  Functions
whose Python recursion is not structural are written with an explicit fuel
argument equal to the input length, so that every definition reduces in the
kernel.
-/

set_option maxRecDepth 8192

/-- Coerce a string literal to the `List Char` representation used throughout. -/
def chars (s : String) : List Char := s.data

/-- ASCII whitespace, the model of Python `str.strip()` / regex `\s`. -/
def wsChar (c : Char) : Bool :=
  c = ' ' || c = '\t' || c = '\n' || c = '\r' || c = '\x0b' || c = '\x0c'

/-- Python `lstrip()`. -/
def lstripWS (l : List Char) : List Char := l.dropWhile wsChar

/-- Python `rstrip()`. -/
def rstripWS (l : List Char) : List Char := (l.reverse.dropWhile wsChar).reverse

/-- Python `strip()`. -/
def pyStrip (l : List Char) : List Char := rstripWS (lstripWS l)

/-- Python `rstrip("\n")`. -/
def rstripNl (l : List Char) : List Char :=
  (l.reverse.dropWhile (fun c => c = '\n')).reverse

/-- Python `pat in s` (substring test). -/
def hasSub (pat s : List Char) : Bool := decide (pat <:+: s)

/-- Python `s.split("\n")` (always returns at least one piece). -/
def splitNl : List Char → List (List Char)
  | [] => [[]]
  | c :: rest =>
    if c = '\n' then [] :: splitNl rest
    else
      match splitNl rest with
      | [] => [[c]]
      | h :: t => (c :: h) :: t

/-- Python `"\n".join(...)`. -/
def joinNl : List (List Char) → List Char
  | [] => []
  | [x] => x
  | x :: y :: rest => x ++ '\n' :: joinNl (y :: rest)

/-- Python `s.splitlines()`: splits on `\n`, `\r\n` and `\r`, no trailing
empty piece for a trailing newline. -/
def splitLinesGo (acc : List Char) : List Char → List (List Char)
  | [] => if acc.isEmpty then [] else [acc.reverse]
  | '\r' :: '\n' :: rest => acc.reverse :: splitLinesGo [] rest
  | '\n' :: rest => acc.reverse :: splitLinesGo [] rest
  | '\r' :: rest => acc.reverse :: splitLinesGo [] rest
  | c :: rest => splitLinesGo (c :: acc) rest

/-- Python `s.splitlines()`. -/
def splitLinesPy (s : List Char) : List (List Char) := splitLinesGo [] s

/-- Fuel-driven core of Python `str.replace` (non-overlapping, leftmost). -/
def replaceFuel (pat rep : List Char) : Nat → List Char → List Char
  | 0, s => s
  | n + 1, s =>
    if pat ≠ [] ∧ pat.isPrefixOf s then rep ++ replaceFuel pat rep n (s.drop pat.length)
    else
      match s with
      | [] => []
      | c :: rest => c :: replaceFuel pat rep n rest

/-- Python `s.replace(pat, rep)` for a non-empty `pat`. -/
def replaceAll (pat rep s : List Char) : List Char := replaceFuel pat rep s.length s

/-- Character class `[0-?]` of the ANSI CSI parameter bytes. -/
def isCsiParam (c : Char) : Bool := 0x30 ≤ c.toNat && c.toNat ≤ 0x3F

/-- Character class of the ANSI CSI intermediate bytes (0x20 to 0x2F). -/
def isCsiInter (c : Char) : Bool := 0x20 ≤ c.toNat && c.toNat ≤ 0x2F

/-- Character class `[@-~]` of the ANSI CSI final bytes. -/
def isCsiFinal (c : Char) : Bool := 0x40 ≤ c.toNat && c.toNat ≤ 0x7E

/-- Decimal digits to a number, for the cursor-forward count. -/
def digitsToNat (ds : List Char) : Nat := ds.foldl (fun a c => a * 10 + (c.toNat - 48)) 0

/-- Fuel-driven substitution of `_CURSOR_FWD_RE` (`\x1b\[(\d*)C` ↦ spaces). -/
def cursorFuel : Nat → List Char → List Char
  | 0, s => s
  | _ + 1, [] => []
  | n + 1, c :: rest =>
    if c = '\x1b' then
      match rest with
      | '[' :: r2 =>
        let ds := r2.takeWhile Char.isDigit
        match r2.drop ds.length with
        | 'C' :: r3 =>
          List.replicate (if ds = [] then 1 else digitsToNat ds) ' ' ++ cursorFuel n r3
        | _ => c :: cursorFuel n rest
      | _ => c :: cursorFuel n rest
    else c :: cursorFuel n rest

/-- Substitution of `_CURSOR_FWD_RE` by spaces (`_clean_line`, first step). -/
def cursorSub (s : List Char) : List Char := cursorFuel s.length s

/-- Fuel-driven deletion of `_ANSI_RE` matches (ESC, bracket, parameter
bytes, intermediate bytes, one final byte). -/
def ansiFuel : Nat → List Char → List Char
  | 0, s => s
  | _ + 1, [] => []
  | n + 1, c :: rest =>
    if c = '\x1b' then
      match rest with
      | '[' :: r2 =>
        let afterP := r2.drop (r2.takeWhile isCsiParam).length
        let afterI := afterP.drop (afterP.takeWhile isCsiInter).length
        match afterI with
        | f :: r3 => if isCsiFinal f then ansiFuel n r3 else c :: ansiFuel n rest
        | [] => c :: ansiFuel n rest
      | _ => c :: ansiFuel n rest
    else c :: ansiFuel n rest

/-- Deletion of all `_ANSI_RE` matches. -/
def ansiStrip (s : List Char) : List Char := ansiFuel s.length s

/-- Python `s.replace("\r", "")`. -/
def removeCr (s : List Char) : List Char := s.filter (fun c => c ≠ '\r')

/-- `_clean_line` from claude.py: cursor-forward substitution, then `\r`
removal, then ANSI deletion, then `rstrip("\n")`. -/
def cleanLine (l : List Char) : List Char := rstripNl (ansiStrip (removeCr (cursorSub l)))

/-- Modelled from the spec: `REQ_ID_PREFIX` of ccb_protocol (absent from
src/); §4.5.1 fixes the marker line as `CCB_REQ_ID: <id>`. -/
def reqIdPfx : List Char := chars "CCB_REQ_ID:"

/-- Modelled from the spec: `BEGIN_PREFIX` of ccb_protocol (absent from
src/); §4.5.1 fixes the marker line as `CCB_BEGIN: <id>`. -/
def beginPfx : List Char := chars "CCB_BEGIN:"

/-- The literal `CCB_DONE:` used inline in claude.py. -/
def donePfx : List Char := chars "CCB_DONE:"

/-- `f"{REQ_ID_PREFIX} {req_id}"`. -/
def reqMarker (reqId : List Char) : List Char := reqIdPfx ++ chars " " ++ reqId

/-- `f"{BEGIN_PREFIX} {req_id}"`. -/
def beginMarker (reqId : List Char) : List Char := beginPfx ++ chars " " ++ reqId

/-- `f"CCB_DONE: {req_id}"`. -/
def doneMarker (reqId : List Char) : List Char := donePfx ++ chars " " ++ reqId

/-- Anchored match of the marker regexes `^\s*<pfx>\s*<id>\s*$` from
claude.py `_done_line_re` and §4.5.1 of the spec. -/
def matchMarkerLine (pfx reqId l : List Char) : Bool :=
  let t := lstripWS l
  if pfx.isPrefixOf t then
    let r := lstripWS (t.drop pfx.length)
    if reqId.isPrefixOf r then (r.drop reqId.length).all wsChar else false
  else false

/-- `_SPINNER_CHARS`. -/
def spinnerChars : List Char := chars "·.*✶✻✽✢✣✤✥✦✧✩✪✫✬✭✮✯"

/-- `_NOISE_PREFIXES`. -/
def noisePfxs : List (List Char) := [chars "❯", chars "🤖"]

/-- `_NOISE_CONTAINS`. -/
def noiseNeedles : List (List Char) :=
  [chars "Bootstrapping", chars "Frolicking", chars "Claude Code",
   chars "bypass permissions", chars "CCB_REQ_ID:", chars "IMPORTANT:",
   chars "End your reply"]

/-- The rule characters of `_is_noise_line`'s final check. -/
def dashRuleChars : List Char := chars "─-_=·*·•"

/-- The needle `"IMPORTANT:"`. -/
def importantNeedle : List Char := chars "IMPORTANT:"

/-- The needle `"End your reply with this exact final line"`. -/
def endReplyNeedle : List Char := chars "End your reply with this exact final line"

/-- `_has_alnum`. -/
def hasAlnum (l : List Char) : Bool := l.any Char.isAlphanum

/-- `_is_noise_line` from claude.py. -/
def isNoiseLine (line : List Char) : Bool :=
  let stripped := pyStrip line
  if stripped = [] then false
  else if noisePfxs.any (fun p => p.isPrefixOf stripped) then true
  else if noiseNeedles.any (fun n => hasSub n stripped) then true
  else if stripped.length ≤ 2 && stripped.all (fun ch => spinnerChars.contains ch) then true
  else if (!hasAlnum stripped) && stripped.all (fun ch => dashRuleChars.contains ch || wsChar ch)
    then true
  else false

/-- `_strip_leading_marker` from claude.py. -/
def stripLeadingMarker (line : List Char) : List Char :=
  let text := lstripWS line
  match text with
  | c :: rest => if c = '●' ∨ c = '•' then lstripWS rest else text
  | [] => text

/-- `_line_counts_as_response` from claude.py. -/
def lineCountsAsResponse (line reqId : List Char) : Bool :=
  if isNoiseLine line then false
  else
    let clean := cleanLine line
    if pyStrip clean = [] then false
    else if pyStrip clean = chars "<reply>" then false
    else if hasSub (reqMarker reqId) clean then false
    else if hasSub (beginMarker reqId) clean then false
    else if hasSub donePfx clean then false
    else if hasSub importantNeedle clean || hasSub endReplyNeedle clean then false
    else if line.contains '●' then true
    else hasAlnum clean

/-- `_split_inline_protocol` from claude.py. -/
def splitInline (line reqId : List Char) : List (List Char) :=
  if line = [] then [line]
  else
    let mReq := reqMarker reqId
    let mBegin := beginMarker reqId
    let mDone := doneMarker reqId
    if !hasSub mReq line && !hasSub mBegin line && !hasSub mDone line then [line]
    else
      let e1 := if hasSub mReq line then replaceAll mReq ('\n' :: mReq ++ ['\n']) line else line
      let e2 := if hasSub mBegin e1 then replaceAll mBegin ('\n' :: mBegin ++ ['\n']) e1 else e1
      let e3 := if hasSub mDone e2 then replaceAll mDone ('\n' :: mDone ++ ['\n']) e2 else e2
      match splitNl e3 with
      | [] => [line]
      | parts => parts

/-- The mutable flags of `_wait_for_response_pane`'s per-line loop. -/
structure PaneState where
  anchor_seen : Bool
  prompt_echo_seen : Bool
  prompt_done_seen : Bool
  begin_seen : Bool
  recent_instruction : Bool
  response_seen : Bool
  done_seen : Bool
deriving DecidableEq

/-- All flags start false. -/
def initPaneState : PaneState :=
  { anchor_seen := false, prompt_echo_seen := false, prompt_done_seen := false
    begin_seen := false, recent_instruction := false, response_seen := false
    done_seen := false }

/-- One iteration of the `for part in _split_inline_protocol(...)` body of
`_wait_for_response_pane` (claude.py lines 926-958).  The boolean is the
`break` executed when DONE is accepted. -/
def stepPartB (reqId : List Char) (s : PaneState) (part : List Char) : PaneState × Bool :=
  let clean := cleanLine part
  let isDone := matchMarkerLine donePfx reqId (pyStrip clean) || hasSub (doneMarker reqId) clean
  let s1 :=
    if (!s.anchor_seen) && hasSub reqIdPfx clean && hasSub reqId clean then
      { s with anchor_seen := true, prompt_echo_seen := true }
    else s
  let s2 :=
    if (!s1.prompt_done_seen) && (hasSub importantNeedle clean || hasSub endReplyNeedle clean) then
      { s1 with recent_instruction := true }
    else s1
  if s2.prompt_echo_seen && (!s2.prompt_done_seen) && isDone then
    ({ s2 with prompt_done_seen := true, recent_instruction := false }, false)
  else if hasSub (beginMarker reqId) clean then
    (if ((!s2.prompt_echo_seen) || s2.prompt_done_seen)
        && ((!s2.recent_instruction) || s2.prompt_done_seen) then
       ({ s2 with begin_seen := true, recent_instruction := false }, false)
     else (s2, false))
  else
    let s3 :=
      if s2.begin_seen && ((!s2.prompt_echo_seen) || s2.prompt_done_seen)
          && lineCountsAsResponse part reqId then
        { s2 with response_seen := true }
      else s2
    if isDone && s3.begin_seen && ((!s3.prompt_echo_seen) || s3.prompt_done_seen)
        && s3.response_seen then
      ({ s3 with done_seen := true }, true)
    else (s3, false)

/-- The parts loop of `_wait_for_response_pane`, with its `break`. -/
def stepParts (reqId : List Char) : List (List Char) → PaneState → PaneState
  | [], s => s
  | p :: rest, s =>
    let r := stepPartB reqId s p
    if r.2 then r.1 else stepParts reqId rest r.1

/-- Processing of one raw pane line (claude.py line 926). -/
def stepLine (reqId : List Char) (s : PaneState) (line : List Char) : PaneState :=
  stepParts reqId (splitInline (cleanLine line) reqId) s

/-- The pane-log state machine over a list of pane lines. -/
def runPane (reqId : List Char) (lines : List (List Char)) : PaneState :=
  lines.foldl (stepLine reqId) initPaneState

/-- The backward walk of `_extract_reply_from_pane` (claude.py 656-697),
over the already expanded lines listed backwards from the DONE line.
Returns `(begin_found, out_rev)`. -/
def walkBack (reqId : List Char) : List (List Char) → Nat → Nat → List (List Char) →
    Bool × List (List Char)
  | [], _, _, out => (false, out)
  | raw :: rest, cEmpty, cNoise, out =>
    let stripped := pyStrip raw
    let clean := cleanLine raw
    if matchMarkerLine donePfx reqId (pyStrip clean) then (false, out)
    else if hasSub (reqMarker reqId) clean then (false, out)
    else if hasSub (beginMarker reqId) clean then (true, out)
    else if hasSub importantNeedle clean || hasSub endReplyNeedle clean then (false, out)
    else if stripped = [] then
      if 5 < cEmpty + 1 then (false, out)
      else walkBack reqId rest (cEmpty + 1) 0 (if out = [] then out else out ++ [[]])
    else if isNoiseLine raw || pyStrip clean = chars "<reply>" then
      if 3 ≤ cNoise + 1 then (false, out)
      else walkBack reqId rest 0 (cNoise + 1) out
    else
      let cleaned := stripLeadingMarker raw
      if pyStrip cleaned = [] then walkBack reqId rest 0 0 out
      else
        let out2 := out ++ [rstripWS cleaned]
        if 200 ≤ out2.length then (false, out2)
        else walkBack reqId rest 0 0 out2

/-- The expansion step of `_extract_reply_from_pane` (claude.py 632-635). -/
def expandPaneLines (lines : List (List Char)) (reqId : List Char) : List (List Char) :=
  (lines.map (fun raw => splitInline (cleanLine raw) reqId)).flatten

/-- `_extract_reply_from_pane` from claude.py. -/
def extractReplyFromPane (lines : List (List Char)) (reqId : List Char) : List Char :=
  let expanded := expandPaneLines lines reqId
  let rev := expanded.reverse
  match rev.findIdx? (fun l => hasSub (doneMarker reqId) l) with
  | none => []
  | some j =>
    let r := walkBack reqId (rev.drop (j + 1)) 0 0 []
    if !r.1 then []
    else
      let out := r.2.reverse
      let out := out.dropWhile (fun l => pyStrip l = [])
      let out := (out.reverse.dropWhile (fun l => pyStrip l = [])).reverse
      rstripWS (joinNl out)

/-- The begin-found flag of `_extract_reply_from_pane` on the same walk. -/
def beginFoundFromPane (lines : List (List Char)) (reqId : List Char) : Bool :=
  let expanded := expandPaneLines lines reqId
  let rev := expanded.reverse
  match rev.findIdx? (fun l => hasSub (doneMarker reqId) l) with
  | none => false
  | some j => (walkBack reqId (rev.drop (j + 1)) 0 0 []).1

/-- The result of the pane-log wait path (claude.py 962-974): exit code 0
exactly when DONE was accepted, else 2, with the extracted reply. -/
structure PaneOutcome where
  exitCode : Nat
  reply : List Char
  doneSeen : Bool
  anchorSeen : Bool
deriving DecidableEq

/-- The pure part of `_wait_for_response_pane` over one batch of lines. -/
def panePathOutcome (lines : List (List Char)) (reqId : List Char) : PaneOutcome :=
  let s := runPane reqId lines
  { exitCode := if s.done_seen then 0 else 2
    reply := extractReplyFromPane lines reqId
    doneSeen := s.done_seen
    anchorSeen := s.anchor_seen }

/-- Modelled from the spec: `wrap_claude_prompt` of laskd_protocol (absent
from src/); §4.5.1 gives the exact wrapped prompt. -/
def wrapPromptLines (reqId message : List Char) : List (List Char) :=
  [reqIdPfx ++ chars " " ++ reqId, beginPfx ++ chars " " ++ reqId] ++ splitNl message
    ++ [[], chars "IMPORTANT: End your reply with this exact final line and nothing after it:",
        donePfx ++ chars " " ++ reqId]

/-- Python `bytes.replace(b"\r", b"\n")` as used on the pane-log buffer. -/
def normCr (s : List Char) : List Char := s.map (fun c => if c = '\r' then '\n' else c)

/-- The value returned by `_read_pane_log`: emitted lines, new offset, carry. -/
structure PaneRead where
  out : List (List Char)
  offset : Nat
  carry : List Char
deriving DecidableEq

/-- Whether the buffer does not end at a line boundary
(`buf and not buf.endswith(b"\\n")`). -/
def bufIncomplete (s : List Char) : Bool :=
  s ≠ [] && s.getLast? ≠ some '\n'

/-- The complete lines a poll emits from its buffer (claude.py 546-550). -/
def emittedPieces (s : List Char) : List (List Char) :=
  if bufIncomplete s then (splitNl s).dropLast else splitNl s

/-- The carry the poll keeps from its buffer (claude.py 546-550). -/
def carryPiece (s : List Char) : List Char :=
  if bufIncomplete s then (splitNl s).getLastD [] else []

/-- The per-line output mapping of `_read_pane_log` (claude.py 552-561):
an empty raw line is emitted as the empty string, others are cleaned. -/
def cleanOr (raw : List Char) : List Char := if raw = [] then [] else cleanLine raw

/-- `_read_pane_log` from claude.py (522-564) over the current file content:
a shrunken file resets the cursor, otherwise the bytes from the offset to the
end of the file are read, the trailing incomplete line is carried forward,
and each complete line is cleaned. -/
def readPaneLog (file : List Char) (offset : Nat) (carry : List Char) : PaneRead :=
  let size := file.length
  let off := if size < offset then 0 else offset
  let car := if size < offset then [] else carry
  let data := file.drop off
  let buf := normCr (car ++ data)
  { out := (emittedPieces buf).map cleanOr
    offset := off + data.length
    carry := carryPiece buf }

/-- Reader event roles (§4.2 of the spec). -/
inductive SRole where
  | user
  | assistant
  | toolEvent
deriving DecidableEq

/-- One iteration of the structured wait loop, as observed from outside:
the time at the top of the loop, the pane liveness an eventual probe would
see, the events `wait_for_events` returns, the time after the wait, and the
size/existence of the fallback log hint a rebind would tail. -/
structure STick where
  tTop : Int
  alive : Bool
  events : List (SRole × List Char)
  tAfter : Int
  hintKnown : Bool
  hintSize : Int

/-- The mutable state of `_wait_for_response` (claude.py 1010-1105). -/
structure SState where
  anchor_seen : Bool
  fallback_scan : Bool
  done_seen : Bool
  rebounded : Bool
  rebinds : Nat
  readerUseIndex : Bool
  cursorOffset : Int
  chunks : List (List Char)
  lastPaneCheck : Int
deriving DecidableEq

/-- Initial state of the structured wait loop. -/
def initSState (now : Int) : SState :=
  { anchor_seen := false, fallback_scan := false, done_seen := false
    rebounded := false, rebinds := 0, readerUseIndex := true
    cursorOffset := 0, chunks := [], lastPaneCheck := now }

/-- Modelled from the spec: `is_done_text` of laskd_protocol (absent from
src/); §4.5.2: DONE is detected on the running concatenation via a
whole-line match of the DONE regex. -/
def isDoneText (s reqId : List Char) : Bool :=
  (splitNl s).any (fun l => matchMarkerLine donePfx reqId l)

/-- Modelled from the spec: `extract_reply_for_req` / `strip_done_text` of
laskd_protocol (absent from src/); §4.5.3: strip the trailing
`CCB_DONE: <id>` line and any whitespace after it. -/
def extractReplyForReq (s reqId : List Char) : List Char :=
  let t := rstripWS s
  let ls := splitNl t
  if matchMarkerLine donePfx reqId (ls.getLastD []) then rstripWS (joinNl ls.dropLast)
  else t

/-- The event fold of `_wait_for_response` (claude.py 1070-1086). -/
def stepEvents (reqId : List Char) (collectGrace tAfter : Int) :
    List (SRole × List Char) → SState → SState
  | [], s => s
  | (role, text) :: rest, s =>
    match role with
    | SRole.user =>
      let s' := if hasSub (reqMarker reqId) text then { s with anchor_seen := true } else s
      stepEvents reqId collectGrace tAfter rest s'
    | SRole.toolEvent => stepEvents reqId collectGrace tAfter rest s
    | SRole.assistant =>
      if (!s.anchor_seen) && decide (tAfter < collectGrace) then
        stepEvents reqId collectGrace tAfter rest s
      else
        let chunks := s.chunks ++ [text]
        if isDoneText (joinNl chunks) reqId then
          { s with chunks := chunks, done_seen := true }
        else stepEvents reqId collectGrace tAfter rest { s with chunks := chunks }

/-- `_tail_state_for_log` offset (claude.py 35-43, laskd_daemon.py 41-49):
a missing file gives offset 0, otherwise `max(0, size - max(0, tail_bytes))`. -/
def tailStateOffset (hintKnown : Bool) (size tailBytes : Int) : Int :=
  if hintKnown then max 0 (size - max 0 tailBytes) else 0

/-- The default of `CCB_LASKD_REBIND_TAIL_BYTES` (claude.py 1028). -/
def defaultTailBytes : Int := 2 * 1024 * 1024

/-- The rebind branch of `_wait_for_response` (claude.py 1062-1067): on an
empty poll before the anchor, once the grace deadline has passed and only
once per request, bind a reader without the sessions index and tail the log
hint. -/
def rebindState (grace tailBytes : Int) (tick : STick) (s : SState) : SState :=
  if (!s.rebounded) && (!s.anchor_seen) && decide (grace ≤ tick.tAfter) then
    { s with readerUseIndex := false
             cursorOffset := tailStateOffset tick.hintKnown tick.hintSize tailBytes
             fallback_scan := true
             rebounded := true
             rebinds := s.rebinds + 1 }
  else s

/-- The result record of the structured path (`ProviderResult` fields the
claims mention). -/
structure SResult where
  exitCode : Nat
  reply : List Char
  done_seen : Bool
  anchor_seen : Bool
  fallback_scan : Bool
  rebinds : Nat
deriving DecidableEq

/-- The result built at the bottom of `_wait_for_response` (claude.py
1091-1105). -/
def mkSRes (reqId : List Char) (s : SState) : SResult :=
  { exitCode := if s.done_seen then 0 else 2
    reply := extractReplyForReq (joinNl s.chunks) reqId
    done_seen := s.done_seen
    anchor_seen := s.anchor_seen
    fallback_scan := s.fallback_scan
    rebinds := s.rebinds }

/-- The early return of `_wait_for_response` when the pane died
(claude.py 1041-1057). -/
def paneDiedRes (s : SState) : SResult :=
  { exitCode := 1
    reply := chars "Claude pane died during request"
    done_seen := false
    anchor_seen := s.anchor_seen
    fallback_scan := s.fallback_scan
    rebinds := s.rebinds }

/-- Whether the deadline check at the top of the loop breaks (remaining
time not positive). -/
def deadlineHit (deadline : Option Int) (t : Int) : Bool :=
  match deadline with
  | none => false
  | some d => decide (d - t ≤ 0)

/-- The wait loop of `_wait_for_response` (claude.py 1032-1089) driven by a
finite observation script; `none` means the loop is still pending when the
script ends. -/
def runStructured (reqId : List Char) (deadline : Option Int)
    (collectGrace grace paneInterval tailBytes : Int) :
    List STick → SState → Option SResult
  | [], _ => none
  | tick :: rest, s =>
    if deadlineHit deadline tick.tTop then some (mkSRes reqId s)
    else
      let probe := decide (paneInterval ≤ tick.tTop - s.lastPaneCheck)
      if probe && !tick.alive then some (paneDiedRes s)
      else
        let s1 := if probe then { s with lastPaneCheck := tick.tTop } else s
        if tick.events = [] then
          runStructured reqId deadline collectGrace grace paneInterval tailBytes rest
            (rebindState grace tailBytes tick s1)
        else
          let s2 := stepEvents reqId collectGrace tick.tAfter tick.events s1
          if s2.done_seen then some (mkSRes reqId s2)
          else runStructured reqId deadline collectGrace grace paneInterval tailBytes rest s2

/-- `deadline = None if timeout < 0 else now + timeout` (claude.py 784,
laskd_daemon.py 136), in milliseconds. -/
def mkDeadline (now timeout : Int) : Option Int :=
  if timeout < 0 then none else some (now + timeout)

/-- `anchor_grace_deadline` (claude.py 1025), 1.5 seconds in milliseconds. -/
def anchorGraceOf (deadline : Option Int) (now : Int) : Int :=
  match deadline with
  | none => now + 1500
  | some d => min d (now + 1500)

/-- `anchor_collect_grace` (claude.py 1026), 2 seconds in milliseconds. -/
def collectGraceOf (deadline : Option Int) (now : Int) : Int :=
  match deadline with
  | none => now + 2000
  | some d => min d (now + 2000)

/-- The environment a request handling observes: whether the session
descriptor, the pane and the terminal backend are available, the start
time, the timeout, and the wait-loop observation script. -/
structure HEnv where
  sessionFound : Bool
  paneOk : Bool
  backendOk : Bool
  now0 : Int
  timeoutMs : Int
  tailBytes : Int
  ticks : List STick

/-- A fatal `exit_code=1` result (claude.py 754-782). -/
def fatalRes (msg : List Char) : SResult :=
  { exitCode := 1, reply := msg, done_seen := false, anchor_seen := false
    fallback_scan := false, rebinds := 0 }

/-- `ClaudeAdapter.handle_task` (claude.py 745-866) on the structured path:
the three fatal guards, then the deadline, then the wait loop. -/
def handleTaskModel (reqId : List Char) (env : HEnv) : Option SResult :=
  if !env.sessionFound then
    some (fatalRes (chars "No active Claude session found for work_dir."))
  else if !env.paneOk then
    some (fatalRes (chars "Session pane not available"))
  else if !env.backendOk then
    some (fatalRes (chars "Terminal backend not available"))
  else
    let deadline := mkDeadline env.now0 env.timeoutMs
    runStructured reqId deadline (collectGraceOf deadline env.now0)
      (anchorGraceOf deadline env.now0) 2000 env.tailBytes env.ticks (initSState env.now0)

/-- Python `str.lower()` (ASCII model). -/
def lowerStr (s : List Char) : List Char := s.map Char.toLower

/-- Non-overlapping occurrence count, fuel-driven (Python `str.count`). -/
def countSubFuel (pat : List Char) : Nat → List Char → Nat
  | 0, _ => 0
  | n + 1, s =>
    if pat ≠ [] ∧ pat.isPrefixOf s then 1 + countSubFuel pat n (s.drop pat.length)
    else
      match s with
      | [] => 0
      | _ :: rest => countSubFuel pat n rest

/-- Python `s.count(pat)` for a non-empty `pat`. -/
def countSub (pat s : List Char) : Nat := countSubFuel pat s.length s

/-- Python `s.split(sep)` for a one-character separator. -/
def splitOnChar (sep : Char) : List Char → List (List Char)
  | [] => [[]]
  | c :: rest =>
    if c = sep then [] :: splitOnChar sep rest
    else
      match splitOnChar sep rest with
      | [] => [[c]]
      | h :: t => (c :: h) :: t

/-- Python `s.strip(cs)` (both ends, any of the given characters). -/
def stripCharsBoth (cs l : List Char) : List Char :=
  ((l.dropWhile (fun c => cs.contains c)).reverse.dropWhile (fun c => cs.contains c)).reverse

/-- Python `s.split()` (no argument: whitespace runs, no empty pieces). -/
def pySplitWSGo (acc : List Char) : List Char → List (List Char)
  | [] => if acc.isEmpty then [] else [acc.reverse]
  | c :: rest =>
    if wsChar c then
      if acc.isEmpty then pySplitWSGo [] rest else acc.reverse :: pySplitWSGo [] rest
    else pySplitWSGo (c :: acc) rest

/-- Python `s.split()`. -/
def pySplitWS (s : List Char) : List (List Char) := pySplitWSGo [] s

/-- Python `" ".join(...)`. -/
def joinSpace (ls : List (List Char)) : List Char := List.intercalate (chars " ") ls

/-- Python `s.split(c, 1)`: text before the first `c`, text after it, and
whether `c` occurred. -/
def splitFirstAt (c : Char) (s : List Char) : List Char × List Char × Bool :=
  match s.findIdx? (fun x => x = c) with
  | none => (s, [], false)
  | some i => (s.take i, s.drop (i + 1), true)

/-- Decimal rendering of a number, for synthesized numbering. -/
def natChars (n : Nat) : List Char := (toString n).data

/-- `_wants_triplet_fences` from claude.py. -/
def wantsTripletFences (message : List Char) : Bool :=
  let msg := lowerStr message
  if hasSub (chars "python") msg && hasSub (chars "json") msg && hasSub (chars "yaml") msg then
    hasSub (chars "code block") msg || hasSub (chars "代码块") message
  else false

/-- `_wants_bash_fence` from claude.py. -/
def wantsBashFence (message : List Char) : Bool :=
  let msg := lowerStr message
  if hasSub (chars "bash") msg then
    hasSub (chars "code block") msg || hasSub (chars "代码块") message
  else false

/-- `_wants_text_fence` from claude.py. -/
def wantsTextFence (message : List Char) : Bool :=
  let msg := lowerStr message
  if hasSub (chars "```text") msg || hasSub (chars "text") msg then
    hasSub (chars "code block") msg || hasSub (chars "代码块") message
  else false

/-- `_wants_release_notes` from claude.py. -/
def wantsReleaseNotes (message : List Char) : Bool :=
  let msg := lowerStr message
  if !hasSub (chars "release notes") msg then false
  else
    hasSub (chars "summary") msg && hasSub (chars "item") msg && hasSub (chars "risk") msg
      && hasSub (chars "action") msg

/-- `_looks_like_release_notes_reply` from claude.py. -/
def looksLikeReleaseNotesReply (reply : List Char) : Bool :=
  if reply = [] then false
  else
    let text := lowerStr reply
    hasSub (chars "release notes") text && hasSub (chars "summary:") text

/-- `_wants_abc_sections` from claude.py. -/
def wantsAbcSections (message : List Char) : Bool :=
  let msg := lowerStr message
  hasSub (chars "## a") msg && hasSub (chars "## b") msg && hasSub (chars "## c") msg

/-- `_wants_section_10` from claude.py. -/
def wantsSection10 (message : List Char) : Bool :=
  let msg := lowerStr message
  hasSub (chars "### section") msg && hasSub (chars "1..10") msg

/-- `_has_fence` from claude.py. -/
def hasFence (reply : List Char) : Bool := hasSub (chars "```") reply

/-- `_BOX_TABLE_CHARS`. -/
def boxTableChars : List Char := chars "┌┬┐├┼┤└┴┘│─"

/-- `_is_box_table_line` from claude.py. -/
def isBoxTableLine (line : List Char) : Bool := line.any (fun ch => boxTableChars.contains ch)

/-- `_should_fix_box_table` from claude.py. -/
def shouldFixBoxTable (message reply : List Char) : Bool :=
  if reply = [] then false
  else if !isBoxTableLine reply then false
  else
    let msg := lowerStr message
    if !hasSub (chars "markdown") msg then false
    else hasSub (chars "table") msg || hasSub (chars "表格") message

/-- The per-line row parse of `_convert_box_table_to_markdown`
(claude.py 193-202). -/
def rowOfLine (ln : List Char) : Option (List (List Char)) :=
  if !ln.contains '│' then none
  else
    let raw := pyStrip ln
    if raw = [] then none
    else
      let parts := (splitOnChar '│' (stripCharsBoth (chars "│") raw)).map pyStrip
      if parts = [] ∨ parts.all (fun p => p = []) then none else some parts

/-- A markdown pipe row `| a | b |`. -/
def mdRow (cells : List (List Char)) : List Char :=
  chars "| " ++ List.intercalate (chars " | ") cells ++ chars " |"

/-- `_convert_box_table_to_markdown` from claude.py (171-221). -/
def convertBoxTableToMarkdown (text : List Char) : List Char :=
  let lines := splitLinesPy text
  if lines = [] then text
  else
    match lines.findIdx? isBoxTableLine with
    | none => text
    | some start =>
      let run := (lines.drop (start + 1)).takeWhile (fun l => isBoxTableLine l || pyStrip l = [])
      let block := (lines.drop start).take (run.length + 1)
      let rows := block.filterMap rowOfLine
      match rows with
      | [] => text
      | header :: restRows =>
        let colCount := header.length
        if colCount = 0 then text
        else
          let out := [mdRow header, mdRow (List.replicate colCount (chars "---"))] ++
            restRows.map (fun row => mdRow ((row ++ List.replicate colCount []).take colCount))
          rstripWS (joinNl (lines.take start ++ out ++ lines.drop (start + run.length + 1)))

/-- The ordered `(tag, start)` segments of `_fix_triplet_fences`. -/
def insertSeg (x : List Char × Nat) : List (List Char × Nat) → List (List Char × Nat)
  | [] => [x]
  | y :: rest => if x.2 ≤ y.2 then x :: y :: rest else y :: insertSeg x rest

/-- Insertion sort of the segments by start index. -/
def sortSegs : List (List Char × Nat) → List (List Char × Nat)
  | [] => []
  | x :: rest => insertSeg x (sortSegs rest)

/-- The fenced blocks built by `_fix_triplet_fences` (claude.py 271-283). -/
def tripletBlocks (lines : List (List Char)) : List (List Char × Nat) → List (List Char)
  | [] => []
  | (tag, start) :: rest =>
    let endI := match rest with | (_, e) :: _ => e | [] => lines.length
    let seg := (lines.drop start).take (endI - start)
    let seg := seg.dropWhile (fun l => pyStrip l = [])
    let seg := (seg.reverse.dropWhile (fun l => pyStrip l = [])).reverse
    let text := pyStrip (joinNl seg)
    (if text = [] then [] else [chars "```" ++ tag ++ chars "\n" ++ text ++ chars "\n```"])
      ++ tripletBlocks lines rest

/-- `_fix_triplet_fences` from claude.py (239-283). -/
def fixTripletFences (reply : List Char) : List Char :=
  if hasFence reply ∧ countSub (chars "```python") reply = 1 ∧ countSub (chars "```json") reply = 1
      ∧ countSub (chars "```yaml") reply = 1 then reply
  else
    let lines := splitLinesPy reply
    let lines :=
      if hasFence reply then lines.filter (fun ln => !((chars "```").isPrefixOf (lstripWS ln)))
      else lines
    let pyStart := lines.findIdx? (fun ln => (chars "def ").isPrefixOf (lstripWS ln))
    let jsonStart := lines.findIdx? (fun ln =>
      (chars "\x7b").isPrefixOf (lstripWS ln) || (chars "[").isPrefixOf (lstripWS ln))
    let yamlStart := lines.findIdx? (fun ln =>
      (chars "name:").isPrefixOf (pyStrip ln) || (chars "version:").isPrefixOf (pyStrip ln))
    let segs :=
      (match pyStart with | some i => [(chars "python", i)] | none => []) ++
      (match jsonStart with | some i => [(chars "json", i)] | none => []) ++
      (match yamlStart with | some i => [(chars "yaml", i)] | none => [])
    match sortSegs segs with
    | [] => reply
    | ss => rstripWS (List.intercalate (chars "\n\n") (tripletBlocks lines ss))

/-- The leading script run of `_fix_bash_fence` (claude.py 299-308). -/
def bashScriptTake : List (List Char) → Bool → List (List Char) × List (List Char)
  | [], _ => ([], [])
  | l :: rest, started =>
    if pyStrip l = [] then ([], l :: rest)
    else if started ∧ ((chars "[").isPrefixOf (lstripWS l) ∨ (chars "\x7b").isPrefixOf (lstripWS l))
      then ([], l :: rest)
    else
      let r := bashScriptTake rest true
      (l :: r.1, r.2)

/-- `_fix_bash_fence` from claude.py (286-320). -/
def fixBashFence (reply : List Char) : List Char :=
  if hasFence reply then reply
  else
    let lines := splitLinesPy reply
    if lines = [] then reply
    else
      match lines.findIdx? (fun l => pyStrip l ≠ []) with
      | none => reply
      | some start =>
        let r := bashScriptTake (lines.drop start) false
        if r.1 = [] then reply
        else
          let rest := r.2.dropWhile (fun l => pyStrip l = [])
          let out := [chars "```bash"] ++ r.1 ++ [chars "```"]
            ++ (if rest = [] then [] else [[]] ++ rest)
          rstripWS (joinNl out)

/-- `_fix_text_fence` from claude.py (323-329). -/
def fixTextFence (reply : List Char) : List Char :=
  if hasFence reply then reply
  else
    let body := pyStrip reply
    if body = [] then reply
    else chars "```text\n" ++ body ++ chars "\n```"

/-- The line promotion of `_fix_abc_sections` (claude.py 334-337). -/
def promoteAbc (l : List Char) : List Char :=
  let st := pyStrip l
  if st = chars "A" ∨ st = chars "B" ∨ st = chars "C" then chars "## " ++ st else l

/-- The section scan of `_fix_abc_sections` (claude.py 339-356), fuel-driven. -/
def abcGoFuel : Nat → List (List Char) → List (List Char)
  | 0, _ => []
  | _ + 1, [] => []
  | n + 1, l :: rest =>
    let line := pyStrip l
    if (chars "## ").isPrefixOf line then
      let pre := rest.takeWhile (fun nxt => !((chars "## ").isPrefixOf (pyStrip nxt)))
      let bullets := (pre.map pyStrip).filter (fun b => (chars "- ").isPrefixOf b)
      line :: (bullets.take 2 ++ abcGoFuel n (rest.drop pre.length))
    else abcGoFuel n rest

/-- `_fix_abc_sections` from claude.py (332-357). -/
def fixAbcSections (reply : List Char) : List Char :=
  let lines := (splitLinesPy reply).map promoteAbc
  rstripWS (joinNl (abcGoFuel lines.length lines))

/-- Match of `^(?:###\s*)?Section\s+(\d+)$` (case-insensitive) on the
stripped line, returning the digit group (claude.py 384, 392). -/
def sectionHeaderNum (l : List Char) : Option (List Char) :=
  let t := pyStrip l
  let t1 := if (chars "###").isPrefixOf t then lstripWS (t.drop 3) else t
  if (chars "section").isPrefixOf (lowerStr t1) then
    let r := t1.drop 7
    match r with
    | c :: _ =>
      if wsChar c then
        let ds := lstripWS r
        if ds ≠ [] ∧ ds.all Char.isDigit then some ds else none
      else none
    | [] => none
  else none

/-- One separator attempt of `_split_to_two_lines` (claude.py 363-369). -/
def tryTwoSep (text : List Char) (sep : Char) : Option (List Char × List Char) :=
  match text.findIdx? (fun x => x = sep) with
  | none => none
  | some idx =>
    if idx + 1 < text.length then
      let second := pyStrip (text.drop (idx + 1))
      if second ≠ [] then some (pyStrip (text.take (idx + 1)), second) else none
    else none

/-- `_split_to_two_lines` from claude.py (360-375). -/
def splitToTwoLines (text : List Char) : List Char × List Char :=
  if text = [] then ([], [])
  else
    match tryTwoSep text '。' <|> tryTwoSep text '.' <|> tryTwoSep text '！' <|>
      tryTwoSep text '!' <|> tryTwoSep text '？' <|> tryTwoSep text '?' with
    | some p => p
    | none =>
      let words := pySplitWS text
      if 2 ≤ words.length then
        let mid := words.length / 2
        (pyStrip (joinSpace (words.take mid)), pyStrip (joinSpace (words.drop mid)))
      else
        let mid := max 1 (text.length / 2)
        (pyStrip (text.take mid), pyStrip (text.drop mid))

/-- The section scan of `_fix_section_10` (claude.py 381-407), fuel-driven. -/
def sec10Fuel : Nat → List (List Char) → List (List Char)
  | 0, _ => []
  | _ + 1, [] => []
  | n + 1, l :: rest =>
    match sectionHeaderNum l with
    | some num =>
      let pre := rest.takeWhile (fun nxt => (sectionHeaderNum nxt).isNone)
      let desc := (pre.map pyStrip).filter (fun d => d ≠ [])
      let body :=
        if 2 ≤ desc.length then desc.take 2
        else
          match desc with
          | [d] =>
            let p := splitToTwoLines d
            [p.1, p.2]
          | _ => [[], []]
      (chars "### Section " ++ num) :: (body ++ sec10Fuel n (rest.drop pre.length))
    | none => sec10Fuel n rest

/-- `_fix_section_10` from claude.py (378-408). -/
def fixSection10 (reply : List Char) : List Char :=
  let lines := splitLinesPy reply
  rstripWS (joinNl (sec10Fuel lines.length lines))

/-- Python `^\d+[\.\)]` match (claude.py 438, 489). -/
def startsNumbered (l : List Char) : Bool :=
  let ds := l.takeWhile Char.isDigit
  ds ≠ [] && (match l.drop ds.length with
              | c :: _ => c = '.' || c = ')'
              | [] => false)

/-- The pipe-table row parse of `_fix_release_notes` (claude.py 444-458). -/
def parseTableRows (lines : List (List Char)) : List (List Char × List Char × List Char) :=
  lines.filterMap (fun ln =>
    if !((chars "|").isPrefixOf (pyStrip ln)) then none
    else if (pyStrip (ln.filter (fun c => c ≠ '|'))).all (fun c => c = '-' || c = ':' || c = ' ')
      then none
    else
      let cells := (splitOnChar '|' (stripCharsBoth (chars "|") (pyStrip ln))).map pyStrip
      if cells.length < 3 then none
      else
        match cells with
        | c0 :: c1 :: c2 :: _ =>
          if lowerStr c0 = chars "item" ∧ lowerStr c1 = chars "risk" then none
          else some (c0, c1, c2)
        | _ => none)

/-- The `Item:/Risk:/Action:` accumulation of `_fix_release_notes`
(claude.py 462-473). -/
def kvRowsGo : List (List Char) → List Char → List Char → List Char →
    List (List Char × List Char × List Char)
  | [], _, _, _ => []
  | ln :: rest, item, risk, action =>
    let low := lowerStr ln
    if (chars "item:").isPrefixOf low then
      kvRowsGo rest (pyStrip (splitFirstAt ':' ln).2.1) risk action
    else if (chars "risk:").isPrefixOf low then
      kvRowsGo rest item (pyStrip (splitFirstAt ':' ln).2.1) action
    else if (chars "action:").isPrefixOf low then
      let action2 := pyStrip (splitFirstAt ':' ln).2.1
      if item ≠ [] ∨ risk ≠ [] ∨ action2 ≠ [] then (item, risk, action2) :: kvRowsGo rest [] [] []
      else kvRowsGo rest [] [] []
    else kvRowsGo rest item risk action

/-- Numbering `f"{i+1}. {text}"` starting at index `i0`. -/
def numberize (i0 : Nat) : List (List Char) → List (List Char)
  | [] => []
  | t :: rest => (natChars (i0 + 1) ++ chars ". " ++ t) :: numberize (i0 + 1) rest

/-- Python string `or` (first operand when non-empty). -/
def pyOrStr (a b : List Char) : List Char := if a = [] then b else a

/-- The rows-derived numbering of `_fix_release_notes` (claude.py 494-499):
the index advances over filtered-out rows as well. -/
def rowsNumberedGo (i : Nat) : List (List Char × List Char × List Char) → List (List Char)
  | [] => []
  | r :: rest =>
    let txt := pyStrip (pyOrStr r.1 (pyOrStr r.2.1 r.2.2))
    (if txt = [] then [] else [natChars (i + 1) ++ chars ". " ++ txt]) ++ rowsNumberedGo (i + 1) rest

/-- The padding loop of `_fix_release_notes` (claude.py 500-503). -/
def padTo4Fuel : Nat → List Char → List (List Char) → List (List Char)
  | 0, _, l => l
  | n + 1, lastText, l =>
    if l.length < 4 then
      padTo4Fuel n lastText (l ++ [natChars (l.length + 1) ++ chars ". " ++ lastText])
    else l

/-- `_fix_release_notes` from claude.py (411-510). -/
def fixReleaseNotes (reply : List Char) : List Char :=
  let rawLines := (splitLinesPy reply).map rstripWS
  let strippedLines := (rawLines.map pyStrip).filter (fun l => l ≠ [])
  let summary0 := strippedLines.find? (fun l => (chars "summary:").isPrefixOf (lowerStr l))
  let summary1 :=
    match summary0 with
    | some s => some s
    | none =>
      match strippedLines.find? (fun l => lowerStr l ≠ chars "release notes") with
      | some l => some (chars "Summary: " ++ l)
      | none => none
  let summaryA := summary1.getD (chars "Summary:")
  let summaryLine :=
    if (chars "summary:").isPrefixOf (lowerStr summaryA) then
      let cut := splitFirstAt ':' summaryA
      let restWords := pySplitWS (pyStrip cut.2.1)
      let rest := if 20 < restWords.length then joinSpace (restWords.take 20) else cut.2.1
      rstripWS (cut.1 ++ chars ": " ++ rest)
    else
      let words := pySplitWS summaryA
      if 21 < words.length then joinSpace (words.take 21) else summaryA
  let numbered := (strippedLines.filter startsNumbered).take 4
  let tableLines := rawLines.filter (fun ln => (chars "|").isPrefixOf (pyStrip ln) && ln.contains '|')
  let rows := if tableLines ≠ [] then parseTableRows tableLines else kvRowsGo strippedLines [] [] []
  let tableLines2 :=
    if tableLines ≠ [] then tableLines
    else if rows ≠ [] then
      [chars "| Item | Risk | Action |", chars "| --- | --- | --- |"] ++
        rows.map (fun r =>
          rstripWS (chars "| " ++ r.1 ++ chars " | " ++ r.2.1 ++ chars " | " ++ r.2.2 ++ chars " |"))
    else []
  let numbered2 :=
    if numbered ≠ [] then numbered
    else
      let candidates := strippedLines.filter (fun ln =>
        let low := lowerStr ln
        !(low = chars "release notes") &&
        !((chars "summary:").isPrefixOf low || (chars "item:").isPrefixOf low ||
          (chars "risk:").isPrefixOf low || (chars "action:").isPrefixOf low) &&
        !((chars "|").isPrefixOf (pyStrip ln)) &&
        !(startsNumbered ln))
      let base :=
        if candidates ≠ [] then numberize 0 (candidates.take 4)
        else if rows ≠ [] then rowsNumberedGo 0 (rows.take 4)
        else []
      if base ≠ [] ∧ base.length < 4 then
        let lastEntry := base.getLastD []
        let cut := splitFirstAt '.' lastEntry
        let lastText := pyStrip (if cut.2.2 then cut.2.1 else cut.1)
        padTo4Fuel 4 lastText base
      else base
  rstripWS (joinNl ([chars "### Release Notes", summaryLine] ++ numbered2 ++ tableLines2))

/-- `ClaudeAdapter._postprocess_reply` from claude.py (992-1008). -/
def postprocessReply (message reply : List Char) : List Char :=
  let f1 := if shouldFixBoxTable message reply then convertBoxTableToMarkdown reply else reply
  let f2 := if wantsTripletFences message then fixTripletFences f1 else f1
  let f3 := if wantsBashFence message then fixBashFence f2 else f2
  let f4 := if wantsTextFence message then fixTextFence f3 else f3
  let f5 :=
    if wantsReleaseNotes message || looksLikeReleaseNotesReply f4 then fixReleaseNotes f4 else f4
  let f6 := if wantsAbcSections message then fixAbcSections f5 else f5
  if wantsSection10 message then fixSection10 f6 else f6

/-- A JSON scalar of the pane registry model. -/
inductive RVal where
  | null
  | str (s : List Char)
  | num (n : Int)
deriving DecidableEq

/-- Python truthiness of a possibly absent registry value. -/
def rvalTruthy : Option RVal → Bool
  | none => false
  | some RVal.null => false
  | some (RVal.str s) => s ≠ []
  | some (RVal.num n) => n ≠ 0

/-- `upsert_registry` from pane_registry.py (115-141): refuse when the
record has no truthy `ccb_session_id` (no write), otherwise merge the
record over the existing entry, skipping null values, and stamp
`updated_at` with the current time.  `none` models "returned False,
nothing written". -/
def upsertRegistry (old record : String → Option RVal) (now : Int) :
    Option (String → Option RVal) :=
  if !rvalTruthy (record "ccb_session_id") then none
  else
    some (fun k =>
      if k = "updated_at" then some (RVal.num now)
      else
        match record k with
        | some RVal.null => old k
        | some v => some v
        | none => old k)

/-! ### General lemmas about the string model -/

theorem hasSub_iff {p s : List Char} : hasSub p s = true ↔ p <:+: s := by
  simp [hasSub]

theorem lstripWS_suffix (l : List Char) : lstripWS l <:+ l :=
  List.dropWhile_suffix wsChar

theorem rstripWS_pfx (l : List Char) : rstripWS l <+: l := by
  have h : (rstripWS l).reverse <:+ l.reverse := by
    unfold rstripWS
    rw [List.reverse_reverse]
    exact List.dropWhile_suffix wsChar
  exact List.reverse_suffix.mp h

theorem pyStrip_sub (l : List Char) : pyStrip l <:+: l :=
  ((rstripWS_pfx (lstripWS l)).isInfix).trans (lstripWS_suffix l).isInfix

theorem stripLeadingMarker_suffix (l : List Char) : stripLeadingMarker l <:+ l := by
  unfold stripLeadingMarker
  cases h : lstripWS l with
  | nil => simp
  | cons c rest =>
    have hsuf : c :: rest <:+ l := h ▸ lstripWS_suffix l
    by_cases hb : c = '●' ∨ c = '•'
    · simp only [hb, if_pos]
      exact ((lstripWS_suffix rest).trans (List.suffix_cons c rest)).trans hsuf
    · simp only [hb, if_neg, not_false_iff]
      exact hsuf

theorem noWS_infix_dropWhile {p l : List Char} (hne : p ≠ [])
    (hws : ∀ c ∈ p, wsChar c = false) (h : p <:+: l) : p <:+: l.dropWhile wsChar := by
  induction l with
  | nil => simpa using h
  | cons c rest ih =>
    rcases List.infix_cons_iff.mp h with hp | hi
    · by_cases hc : wsChar c
      · cases p with
        | nil => exact absurd rfl hne
        | cons q qs =>
          obtain ⟨t, ht⟩ := hp
          have hq : q = c := by
            have := congrArg (fun x => x.headD ' ') ht
            simpa using this
          have : wsChar q = false := hws q (List.mem_cons_self q qs)
          rw [hq] at this
          rw [this] at hc
          exact absurd hc (by simp)
      · rw [List.dropWhile_cons]
        simp only [hc, if_false]
        exact hp.isInfix
    · by_cases hc : wsChar c
      · rw [List.dropWhile_cons]
        simp only [hc, if_true]
        exact ih hi
      · rw [List.dropWhile_cons]
        simp only [hc, if_false]
        exact List.infix_cons hi

theorem noWS_infix_pyStrip {p l : List Char} (hne : p ≠ [])
    (hws : ∀ c ∈ p, wsChar c = false) (h : p <:+: l) : p <:+: pyStrip l := by
  have h1 : p <:+: lstripWS l := noWS_infix_dropWhile hne hws h
  have h2 : p.reverse <:+: (lstripWS l).reverse := List.reverse_infix.mpr h1
  have hne' : p.reverse ≠ [] := by simpa using hne
  have hws' : ∀ c ∈ p.reverse, wsChar c = false := fun c hc => hws c (List.mem_reverse.mp hc)
  have h3 : p.reverse <:+: ((lstripWS l).reverse).dropWhile wsChar :=
    noWS_infix_dropWhile hne' hws' h2
  have h4 : p.reverse <:+: (rstripWS (lstripWS l)).reverse := by
    unfold rstripWS
    rwa [List.reverse_reverse]
  exact List.reverse_infix.mp h4

theorem matchMarker_pfx_sub {pfx reqId l : List Char}
    (h : matchMarkerLine pfx reqId l = true) : pfx <:+: l := by
  unfold matchMarkerLine at h
  by_cases hp : pfx.isPrefixOf (lstripWS l)
  · have := List.isPrefixOf_iff_prefix.mp hp
    exact this.isInfix.trans (lstripWS_suffix l).isInfix
  · simp only [hp, if_false] at h
    exact absurd h (by simp)

theorem response_false_of_doneSub {part reqId : List Char}
    (h : hasSub donePfx (cleanLine part) = true) : lineCountsAsResponse part reqId = false := by
  unfold lineCountsAsResponse
  split_ifs <;> simp_all

theorem done_not_response {part reqId : List Char}
    (h : (matchMarkerLine donePfx reqId (pyStrip (cleanLine part))
          || hasSub (doneMarker reqId) (cleanLine part)) = true) :
    lineCountsAsResponse part reqId = false := by
  rcases (Bool.or_eq_true _ _).mp h with h1 | h2
  · apply response_false_of_doneSub
    rw [hasSub_iff]
    exact (matchMarker_pfx_sub h1).trans (pyStrip_sub _)
  · apply response_false_of_doneSub
    rw [hasSub_iff]
    have hpre : donePfx <+: doneMarker reqId := by
      unfold doneMarker
      exact List.prefix_append donePfx (chars " " ++ reqId)
    exact hpre.isInfix.trans (hasSub_iff.mp h2)

theorem done_not_response' {part reqId : List Char}
    (h : matchMarkerLine donePfx reqId (pyStrip (cleanLine part)) = true ∨
         hasSub (doneMarker reqId) (cleanLine part) = true) :
    lineCountsAsResponse part reqId = false :=
  done_not_response (by rcases h with h | h <;> simp [h])

theorem paneStep_done_requires (reqId : List Char) (s : PaneState) (part : List Char)
    (h0 : s.done_seen = false) (h1 : (stepPartB reqId s part).1.done_seen = true) :
    s.begin_seen = true ∧ s.response_seen = true ∧
      (s.prompt_echo_seen = true → s.prompt_done_seen = true) := by
  obtain ⟨a, pe, pd, bg, ri, rs, dn⟩ := s
  simp only at h0
  subst h0
  simp only [stepPartB] at h1
  split_ifs at h1 <;> simp_all [done_not_response']
  rename_i hfin
  intro hpe
  rcases hfin.1.2 with hpe' | hpd
  · rw [hpe] at hpe'
    exact absurd hpe' (by simp)
  · exact hpd

theorem paneStep_mono (reqId : List Char) (s : PaneState) (part : List Char) :
    (s.begin_seen = true → (stepPartB reqId s part).1.begin_seen = true) ∧
    (s.response_seen = true → (stepPartB reqId s part).1.response_seen = true) ∧
    (s.done_seen = true → (stepPartB reqId s part).1.done_seen = true) := by
  obtain ⟨a, pe, pd, bg, ri, rs, dn⟩ := s
  simp only [stepPartB]
  split_ifs <;> simp_all

/-- The run-level invariant of the pane machine: DONE was accepted only
with BEGIN accepted and response content seen. -/
def paneInv (s : PaneState) : Prop :=
  s.done_seen = true → s.begin_seen = true ∧ s.response_seen = true

theorem paneStep_inv (reqId : List Char) (s : PaneState) (part : List Char)
    (h : paneInv s) : paneInv (stepPartB reqId s part).1 := by
  intro hdone
  by_cases hd : s.done_seen = true
  · obtain ⟨hb, hr⟩ := h hd
    exact ⟨(paneStep_mono reqId s part).1 hb, (paneStep_mono reqId s part).2.1 hr⟩
  · have h0 : s.done_seen = false := by
      cases hsd : s.done_seen
      · rfl
      · exact absurd hsd hd
    obtain ⟨hb, hr, _⟩ := paneStep_done_requires reqId s part h0 hdone
    exact ⟨(paneStep_mono reqId s part).1 hb, (paneStep_mono reqId s part).2.1 hr⟩

theorem stepParts_inv (reqId : List Char) (parts : List (List Char)) (s : PaneState)
    (h : paneInv s) : paneInv (stepParts reqId parts s) := by
  induction parts generalizing s with
  | nil => simpa [stepParts] using h
  | cons p rest ih =>
    simp only [stepParts]
    split_ifs
    · exact paneStep_inv reqId s p h
    · exact ih _ (paneStep_inv reqId s p h)

theorem foldl_stepLine_inv (reqId : List Char) (lines : List (List Char)) (s : PaneState)
    (h : paneInv s) : paneInv (List.foldl (stepLine reqId) s lines) := by
  induction lines generalizing s with
  | nil => simpa using h
  | cons l rest ih =>
    rw [List.foldl_cons]
    exact ih _ (stepParts_inv reqId _ s h)

theorem runPane_inv (reqId : List Char) (lines : List (List Char)) :
    paneInv (runPane reqId lines) := by
  unfold runPane
  apply foldl_stepLine_inv
  intro h
  simp [initPaneState] at h

/-- Claim C1: in the Claude adapter's pane-log state machine, DONE is
accepted for a part only when the request's BEGIN marker was already
accepted, at least one reply-content line was already observed, and,
whenever the prompt echo was seen, the echoed prompt's own DONE line was
already consumed; consequently any run that ends with `done_seen` also has
`begin_seen` and `response_seen`, and a DONE line arriving before those
conditions hold leaves `done_seen` false. -/
theorem claudePane_done_seen_gating :
    (∀ (reqId : List Char) (s : PaneState) (part : List Char),
      s.done_seen = false → (stepPartB reqId s part).1.done_seen = true →
        s.begin_seen = true ∧ s.response_seen = true ∧
          (s.prompt_echo_seen = true → s.prompt_done_seen = true)) ∧
    (∀ (reqId : List Char) (lines : List (List Char)),
      (runPane reqId lines).done_seen = true →
        (runPane reqId lines).begin_seen = true ∧ (runPane reqId lines).response_seen = true) :=
  ⟨paneStep_done_requires, fun reqId lines => runPane_inv reqId lines⟩

/-- Witness for C1 at a concrete state and DONE part. -/
theorem claudePane_done_seen_gating_witness :
    ({ anchor_seen := false, prompt_echo_seen := false, prompt_done_seen := false
       begin_seen := true, recent_instruction := false, response_seen := true
       done_seen := false : PaneState }.done_seen = false) ∧
    ((stepPartB (chars "r")
       { anchor_seen := false, prompt_echo_seen := false, prompt_done_seen := false
         begin_seen := true, recent_instruction := false, response_seen := true
         done_seen := false } (chars "CCB_DONE: r")).1.done_seen = true) ∧
    ({ anchor_seen := false, prompt_echo_seen := false, prompt_done_seen := false
       begin_seen := true, recent_instruction := false, response_seen := true
       done_seen := false : PaneState }.begin_seen = true) :=
  ⟨by decide, by decide,
    (claudePane_done_seen_gating.1 (chars "r")
      { anchor_seen := false, prompt_echo_seen := false, prompt_done_seen := false
        begin_seen := true, recent_instruction := false, response_seen := true
        done_seen := false } (chars "CCB_DONE: r") (by decide) (by decide)).1⟩

/-- The pane-log trace of claim C2 exactly as the claim states it: the
echoed wrapped prompt, then reply content, then a second DONE line. -/
def c2EchoLines : List (List Char) :=
  wrapPromptLines (chars "r2") (chars "say hi") ++ [chars "hello", chars "CCB_DONE: r2"]

/-- Claim C2 counterexample: on the claimed trace the echoed BEGIN is
rejected (it precedes the echo's DONE), so the second DONE does not set
`done_seen`; the request times out with exit code 2 and an empty reply,
contradicting the claimed `exit_code=0` with the reply returned. -/
theorem c2_counterexample :
    (runPane (chars "r2") c2EchoLines).done_seen = false ∧
    (panePathOutcome c2EchoLines (chars "r2")).exitCode = 2 ∧
    (panePathOutcome c2EchoLines (chars "r2")).reply = [] := by decide

/-- The C2 trace amended with the prompt block redisplayed after the echo:
a `CCB_BEGIN: r2` line recurs after the echo's DONE was consumed. -/
def c2RedisplayLines : List (List Char) :=
  wrapPromptLines (chars "r2") (chars "say hi") ++
    [chars "CCB_BEGIN: r2", chars "hello", chars "CCB_DONE: r2"]

/-- Claim C2 amended: the adapter does consume the first DONE as prompt
echo, but the echoed BEGIN is rejected, so reply content plus a second DONE
alone leave `done_seen` false; `done_seen` is set (and the content returned
with exit code 0) only when a BEGIN line for the id recurs after the echo's
DONE. -/
theorem c2_amended :
    (runPane (chars "r2") (wrapPromptLines (chars "r2") (chars "say hi"))).prompt_done_seen
        = true ∧
    (runPane (chars "r2") (wrapPromptLines (chars "r2") (chars "say hi"))).done_seen = false ∧
    (panePathOutcome c2RedisplayLines (chars "r2")).doneSeen = true ∧
    (panePathOutcome c2RedisplayLines (chars "r2")).exitCode = 0 ∧
    (panePathOutcome c2RedisplayLines (chars "r2")).reply = chars "hello" := by decide

/-- Claim C5 counterexample: on the pane-log path, DONE immediately after
BEGIN with no content in between does not complete: `response_seen` gating
leaves `done_seen` false and the exit code is 2, contradicting the claimed
`done_seen=true` with `exit_code=0`. -/
theorem c5_counterexample :
    (runPane (chars "r1") [chars "CCB_BEGIN: r1", chars "CCB_DONE: r1"]).done_seen = false ∧
    (panePathOutcome [chars "CCB_BEGIN: r1", chars "CCB_DONE: r1"] (chars "r1")).exitCode = 2
      := by decide

/-- The structured-path run of claim C5: anchor echo then a bare DONE chunk. -/
def c5StructuredRun : Option SResult :=
  runStructured (chars "r1") (mkDeadline 0 300000)
    (collectGraceOf (mkDeadline 0 300000) 0) (anchorGraceOf (mkDeadline 0 300000) 0)
    2000 defaultTailBytes
    [{ tTop := 0, alive := true
       events := [(SRole.user, reqMarker (chars "r1") ++ chars " ping"),
                  (SRole.assistant, doneMarker (chars "r1"))]
       tAfter := 100, hintKnown := false, hintSize := 0 }]
    (initSState 0)

/-- Claim C5 amended: on the structured-reader path a DONE immediately
after BEGIN with no content completes with `done_seen=true`, an empty
reply and exit code 0; on the pane-log path the same pattern leaves
`done_seen` false with exit code 2 and an empty reply, because DONE
acceptance requires `response_seen`. -/
theorem c5_amended :
    c5StructuredRun = some { exitCode := 0, reply := [], done_seen := true
                             anchor_seen := true, fallback_scan := false, rebinds := 0 } ∧
    (runPane (chars "r1") [chars "CCB_BEGIN: r1", chars "CCB_DONE: r1"]).done_seen = false ∧
    (panePathOutcome [chars "CCB_BEGIN: r1", chars "CCB_DONE: r1"] (chars "r1")).exitCode = 2 ∧
    (panePathOutcome [chars "CCB_BEGIN: r1", chars "CCB_DONE: r1"] (chars "r1")).reply = []
      := by decide

/-- The pane-log trace of the C3 counterexample: a BEGIN marker, a reply
line `CCB_BEGIN:r` (no space after the colon), and a DONE line. -/
def c3Lines : List (List Char) :=
  [chars "CCB_BEGIN: r", chars "CCB_BEGIN:r", chars "CCB_DONE: r"]

/-- Claim C3 counterexample: a successful request (exit code 0) whose
extracted reply contains a line matching the claim's BEGIN regex
`^\s*CCB_BEGIN:\s*r\s*$` — the reply line `CCB_BEGIN:r` has no space after
the colon, so the extractor's substring guard (which requires the spaced
form) does not stop on it. -/
theorem c3_counterexample :
    (panePathOutcome c3Lines (chars "r")).exitCode = 0 ∧
    (panePathOutcome c3Lines (chars "r")).doneSeen = true ∧
    ((splitNl (panePathOutcome c3Lines (chars "r")).reply).any
      (fun l => matchMarkerLine beginPfx (chars "r") l)) = true := by decide

theorem prefix_of_append_cons_nl {p x y : List Char} (hnl : '\n' ∉ p)
    (h : p <+: x ++ '\n' :: y) : p <+: x := by
  rw [List.prefix_iff_eq_take] at h
  by_cases hlen : p.length ≤ x.length
  · rw [List.take_append_eq_append_take] at h
    have hz : p.length - x.length = 0 := by omega
    rw [hz, List.take_zero, List.append_nil] at h
    rw [h]
    exact List.take_prefix _ _
  · exfalso
    apply hnl
    rw [List.take_append_eq_append_take] at h
    have hk : p.length - x.length = (p.length - x.length - 1) + 1 := by omega
    rw [List.take_of_length_le (by omega), hk, List.take_succ_cons] at h
    rw [h]
    exact List.mem_append_right _ (List.mem_cons_self _ _)

theorem infix_of_append_cons_nl {p x y : List Char} (hnl : '\n' ∉ p)
    (h : p <:+: x ++ '\n' :: y) : p <:+: x ∨ p <:+: y := by
  obtain ⟨s, t, hst⟩ := h
  have hpre : p <+: (x ++ '\n' :: y).drop s.length := by
    have : (x ++ '\n' :: y).drop s.length = p ++ t := by
      rw [← hst, List.append_assoc, List.drop_left]
    rw [this]
    exact List.prefix_append p t
  by_cases hlen : s.length ≤ x.length
  · left
    rw [List.drop_append_eq_append_drop] at hpre
    have hz : s.length - x.length = 0 := by omega
    rw [hz, List.drop_zero] at hpre
    exact (prefix_of_append_cons_nl hnl hpre).isInfix.trans (List.drop_suffix _ _).isInfix
  · right
    rw [List.drop_append_eq_append_drop, List.drop_of_length_le (by omega)] at hpre
    have hk : s.length - x.length = (s.length - x.length - 1) + 1 := by omega
    rw [hk, List.drop_succ_cons, List.nil_append] at hpre
    exact hpre.isInfix.trans (List.drop_suffix _ _).isInfix

theorem noNl_infix_joinNl {p : List Char} {outs : List (List Char)} (hne : p ≠ [])
    (hnl : '\n' ∉ p) (h : p <:+: joinNl outs) : ∃ t ∈ outs, p <:+: t := by
  induction outs with
  | nil =>
    simp only [joinNl] at h
    exact absurd (List.eq_nil_of_infix_nil h) hne
  | cons x rest ih =>
    cases rest with
    | nil =>
      simp only [joinNl] at h
      exact ⟨x, List.mem_cons_self _ _, h⟩
    | cons y r2 =>
      simp only [joinNl] at h
      rcases infix_of_append_cons_nl hnl h with hx | hr
      · exact ⟨x, List.mem_cons_self _ _, hx⟩
      · obtain ⟨t, ht, hpt⟩ := ih hr
        exact ⟨t, List.mem_cons_of_mem _ ht, hpt⟩

theorem splitNl_headD_prefix (s : List Char) : (splitNl s).headD [] <+: s := by
  induction s with
  | nil => simp [splitNl]
  | cons c rest ih =>
    by_cases hc : c = '\n'
    · simp [splitNl, hc]
    · simp only [splitNl, hc, if_neg, not_false_iff]
      cases hsp : splitNl rest with
      | nil => simp
      | cons h t =>
        simp only [List.headD_cons]
        rw [hsp] at ih
        simp only [List.headD_cons] at ih
        exact List.cons_prefix_cons.mpr ⟨rfl, ih⟩

theorem mem_splitNl_sub {l : List Char} {s : List Char} (h : l ∈ splitNl s) : l <:+: s := by
  induction s generalizing l with
  | nil =>
    simp only [splitNl, List.mem_singleton] at h
    simp [h]
  | cons c rest ih =>
    by_cases hc : c = '\n'
    · simp only [splitNl, hc, if_pos] at h
      rcases List.mem_cons.mp h with h0 | h0
      · simp [h0]
      · exact List.infix_cons (ih h0)
    · simp only [splitNl, hc, if_neg, not_false_iff] at h
      cases hsp : splitNl rest with
      | nil =>
        rw [hsp] at h
        simp only [List.mem_singleton] at h
        subst h
        exact (List.cons_prefix_cons.mpr ⟨rfl, List.nil_prefix⟩).isInfix
      | cons hd tl =>
        rw [hsp] at h
        rcases List.mem_cons.mp h with h0 | h0
        · subst h0
          have hpre : hd <+: rest := by
            have := splitNl_headD_prefix rest
            rw [hsp] at this
            simpa using this
          exact (List.cons_prefix_cons.mpr ⟨rfl, hpre⟩).isInfix
        · have : l ∈ splitNl rest := by rw [hsp]; exact List.mem_cons_of_mem _ h0
          exact List.infix_cons (ih this)

theorem not_req_infix_of_not_noise {raw : List Char} (hn : isNoiseLine raw = false) :
    ¬ (reqIdPfx <:+: raw) := by
  intro hinf
  have hstrip : reqIdPfx <:+: pyStrip raw :=
    noWS_infix_pyStrip (by decide) (by decide) hinf
  have hsne : pyStrip raw ≠ [] := by
    intro hnil
    rw [hnil] at hstrip
    exact absurd (List.eq_nil_of_infix_nil hstrip) (by decide)
  unfold isNoiseLine at hn
  simp only [hsne, if_neg, not_false_iff] at hn
  split_ifs at hn with h1 h2 h3 h4
  have hss : hasSub reqIdPfx (pyStrip raw) = true := hasSub_iff.mpr hstrip
  have hmem : reqIdPfx ∈ noiseNeedles := by decide
  have hany : noiseNeedles.any (fun n => hasSub n (pyStrip raw)) = true :=
    List.any_eq_true.mpr ⟨reqIdPfx, hmem, hss⟩
  exact absurd hany h2

theorem req_not_in_appended {raw : List Char} (hn : isNoiseLine raw = false) :
    ¬ (reqIdPfx <:+: rstripWS (stripLeadingMarker raw)) := by
  intro h
  exact not_req_infix_of_not_noise hn
    ((h.trans (rstripWS_pfx _).isInfix).trans (stripLeadingMarker_suffix raw).isInfix)

theorem walkBack_no_req (reqId : List Char) (xs : List (List Char)) :
    ∀ (c1 c2 : Nat) (out : List (List Char)),
      (∀ t ∈ out, ¬ (reqIdPfx <:+: t)) →
      ∀ t ∈ (walkBack reqId xs c1 c2 out).2, ¬ (reqIdPfx <:+: t) := by
  induction xs with
  | nil =>
    intro c1 c2 out h
    simpa [walkBack] using h
  | cons raw rest ih =>
    intro c1 c2 out h
    simp only [walkBack]
    split_ifs <;>
      first
        | simpa using h
        | exact ih _ _ _ h
        | (refine ih _ _ _ ?_
           intro t ht
           rcases List.mem_append.mp ht with ht | ht
           · exact h t ht
           · rw [List.mem_singleton] at ht
             subst ht
             intro hinf
             exact absurd (List.eq_nil_of_infix_nil hinf) (by decide))
        | (have hnoise : isNoiseLine raw = false := by
             cases hno : isNoiseLine raw
             · rfl
             · simp_all
           have hout2 : ∀ t ∈ out ++ [rstripWS (stripLeadingMarker raw)],
               ¬ (reqIdPfx <:+: t) := by
             intro t ht
             rcases List.mem_append.mp ht with ht | ht
             · exact h t ht
             · rw [List.mem_singleton] at ht
               subst ht
               exact req_not_in_appended hnoise
           first
             | simpa using hout2
             | exact ih _ _ _ hout2)

theorem mem_of_mem_trimmed {t : List Char} {X : List (List Char)} {q : List Char → Bool}
    (h : t ∈ ((X.dropWhile q).reverse.dropWhile q).reverse) : t ∈ X := by
  rw [List.mem_reverse] at h
  have h1 : t ∈ (X.dropWhile q).reverse := (List.dropWhile_suffix q).subset h
  rw [List.mem_reverse] at h1
  exact (List.dropWhile_suffix q).subset h1

/-- Claim C3 amended: for every pane log and request id, no line of the
extracted reply matches the REQ_ID marker regex (the extractor's noise
filter drops any line containing `CCB_REQ_ID:`), and when the backward walk
never saw the BEGIN marker the extracted reply is empty.  (The BEGIN and
DONE regexes can still match reply lines in colon-without-space or
bullet-prefixed edge forms, as the counterexample shows.) -/
theorem claudeExtract_marker_free (lines : List (List Char)) (reqId : List Char) :
    ((splitNl (extractReplyFromPane lines reqId)).all
      (fun l => !matchMarkerLine reqIdPfx reqId l)) = true ∧
    (beginFoundFromPane lines reqId = false → extractReplyFromPane lines reqId = []) := by
  constructor
  · rw [List.all_eq_true]
    intro l hl
    cases hm : matchMarkerLine reqIdPfx reqId l with
    | false => simp
    | true =>
      exfalso
      have hinf : reqIdPfx <:+: l := matchMarker_pfx_sub hm
      have hrep : reqIdPfx <:+: extractReplyFromPane lines reqId :=
        hinf.trans (mem_splitNl_sub hl)
      have hnil : ¬ (reqIdPfx <:+: ([] : List Char)) := by
        intro hx
        exact absurd (List.eq_nil_of_infix_nil hx) (by decide)
      simp only [extractReplyFromPane] at hrep
      cases hidx : (expandPaneLines lines reqId).reverse.findIdx?
          (fun l => hasSub (doneMarker reqId) l) with
      | none =>
        rw [hidx] at hrep
        exact hnil hrep
      | some j =>
        rw [hidx] at hrep
        simp only at hrep
        cases hflag : (walkBack reqId ((expandPaneLines lines reqId).reverse.drop (j + 1))
            0 0 []).1 with
        | false =>
          rw [hflag] at hrep
          simp only [Bool.not_false, if_pos] at hrep
          exact hnil hrep
        | true =>
          rw [hflag] at hrep
          simp only [Bool.not_true, if_neg] at hrep
          have hjoin : reqIdPfx <:+: joinNl
              (((((walkBack reqId ((expandPaneLines lines reqId).reverse.drop (j + 1))
                  0 0 []).2.reverse.dropWhile (fun l => pyStrip l = [])).reverse.dropWhile
                  (fun l => pyStrip l = [])).reverse)) := by
            exact hrep.trans (rstripWS_pfx _).isInfix
          obtain ⟨t, htmem, hti⟩ := noNl_infix_joinNl (by decide) (by decide) hjoin
          have htout : t ∈ (walkBack reqId
              ((expandPaneLines lines reqId).reverse.drop (j + 1)) 0 0 []).2.reverse :=
            mem_of_mem_trimmed htmem
          rw [List.mem_reverse] at htout
          exact walkBack_no_req reqId _ 0 0 [] (by simp) t htout hti
  · intro hflag
    simp only [beginFoundFromPane] at hflag
    simp only [extractReplyFromPane]
    cases hidx : (expandPaneLines lines reqId).reverse.findIdx?
        (fun l => hasSub (doneMarker reqId) l) with
    | none => rfl
    | some j =>
      rw [hidx] at hflag
      simp only at hflag
      simp only [hflag, Bool.not_false, if_pos]

/-- Witness for the amended C3 at a concrete pane log without a BEGIN
marker: the walk finds no BEGIN and the reply is empty. -/
theorem claudeExtract_marker_free_witness :
    beginFoundFromPane [chars "hello", chars "CCB_DONE: r"] (chars "r") = false ∧
    extractReplyFromPane [chars "hello", chars "CCB_DONE: r"] (chars "r") = [] :=
  ⟨by decide,
    (claudeExtract_marker_free [chars "hello", chars "CCB_DONE: r"] (chars "r")).2 (by decide)⟩

/-- Claim C8 counterexample: with an empty message (triggering none of the
shaping predicates), a reply that itself looks like release notes is
rewritten by `_fix_release_notes`, so post-processing is not the identity
on all replies when the message has no hints. -/
theorem c8_counterexample :
    wantsTripletFences [] = false ∧ wantsBashFence [] = false ∧ wantsTextFence [] = false ∧
    wantsReleaseNotes [] = false ∧ wantsAbcSections [] = false ∧ wantsSection10 [] = false ∧
    shouldFixBoxTable [] (chars "Release Notes\nSummary: ok") = false ∧
    postprocessReply [] (chars "Release Notes\nSummary: ok")
      ≠ chars "Release Notes\nSummary: ok" := by decide

/-- Claim C8 amended: post-processing is the identity whenever the message
triggers none of the shaping predicates and additionally the reply does not
itself look like a release-notes reply — the release-notes rewrite is also
triggered by the reply text alone (claude.py 1002). -/
theorem c8_amended (message reply : List Char)
    (h1 : shouldFixBoxTable message reply = false)
    (h2 : wantsTripletFences message = false)
    (h3 : wantsBashFence message = false)
    (h4 : wantsTextFence message = false)
    (h5 : wantsReleaseNotes message = false)
    (h6 : looksLikeReleaseNotesReply reply = false)
    (h7 : wantsAbcSections message = false)
    (h8 : wantsSection10 message = false) :
    postprocessReply message reply = reply := by
  simp [postprocessReply, h1, h2, h3, h4, h5, h6, h7, h8]

/-- Witness for the amended C8 at a concrete hint-free message and reply. -/
theorem c8_amended_witness :
    shouldFixBoxTable (chars "hi") (chars "plain text") = false ∧
    postprocessReply (chars "hi") (chars "plain text") = chars "plain text" :=
  ⟨by decide,
    c8_amended (chars "hi") (chars "plain text") (by decide) (by decide) (by decide)
      (by decide) (by decide) (by decide) (by decide) (by decide)⟩

theorem convert_id_of_no_box {s : List Char}
    (h : (splitLinesPy s).all (fun l => !isBoxTableLine l) = true) :
    convertBoxTableToMarkdown s = s := by
  unfold convertBoxTableToMarkdown
  by_cases hnil : splitLinesPy s = []
  · simp [hnil]
  · have hidx : (splitLinesPy s).findIdx? isBoxTableLine = none := by
      rw [List.findIdx?_eq_none_iff]
      intro x hx
      have hx2 := List.all_eq_true.mp h x hx
      simpa using hx2
    simp [hnil, hidx]

/-- Claim C9 counterexample: an input with a second box-drawing block after
the first converted block; the first application converts only the first
block, the second application converts the remainder, so the two results
differ. -/
theorem c9_counterexample :
    convertBoxTableToMarkdown (convertBoxTableToMarkdown (chars "┌┐\n│a│b│\nx\n│c│d│"))
      ≠ convertBoxTableToMarkdown (chars "┌┐\n│a│b│\nx\n│c│d│") := by decide

/-- Claim C9 amended: the box-drawing conversion is idempotent on every
input whose converted output contains no remaining box-drawing line (in
particular any input whose box-drawing characters form a single leading
block with box-free cells); when box-drawing lines survive the first pass a
second application converts them further. -/
theorem c9_amended (t : List Char)
    (h : (splitLinesPy (convertBoxTableToMarkdown t)).all
      (fun l => !isBoxTableLine l) = true) :
    convertBoxTableToMarkdown (convertBoxTableToMarkdown t) = convertBoxTableToMarkdown t :=
  convert_id_of_no_box h

/-- Witness for the amended C9 at a single-table input. -/
theorem c9_amended_witness :
    ((splitLinesPy (convertBoxTableToMarkdown (chars "┌─┬─┐\n│a│b│\n└─┴─┘"))).all
      (fun l => !isBoxTableLine l) = true) ∧
    convertBoxTableToMarkdown
        (convertBoxTableToMarkdown (chars "┌─┬─┐\n│a│b│\n└─┴─┘"))
      = convertBoxTableToMarkdown (chars "┌─┬─┐\n│a│b│\n└─┴─┘") :=
  ⟨by decide, c9_amended (chars "┌─┬─┐\n│a│b│\n└─┴─┘") (by decide)⟩

/-- Claim C10: `upsert_registry` refuses and writes nothing without a
truthy `ccb_session_id` in the record; otherwise it merges the record into
the existing entry — keys absent from the record and keys with a null
record value keep their previous value — and always overwrites
`updated_at` with the current time. -/
theorem upsertRegistry_merges :
    (∀ (old record : String → Option RVal) (now : Int),
      rvalTruthy (record "ccb_session_id") = false → upsertRegistry old record now = none) ∧
    (∀ (old record : String → Option RVal) (now : Int) (m : String → Option RVal),
      upsertRegistry old record now = some m →
        m "updated_at" = some (RVal.num now) ∧
        (∀ k, k ≠ "updated_at" → record k = none → m k = old k) ∧
        (∀ k, k ≠ "updated_at" → record k = some RVal.null → m k = old k) ∧
        (∀ k v, k ≠ "updated_at" → record k = some v → v ≠ RVal.null → m k = some v)) := by
  constructor
  · intro old record now h
    simp [upsertRegistry, h]
  · intro old record now m hm
    unfold upsertRegistry at hm
    split_ifs at hm with ht
    have hfm := Option.some.inj hm
    subst hfm
    refine ⟨by simp, ?_, ?_, ?_⟩
    · intro k hk hr
      simp [hk, hr]
    · intro k hk hr
      simp [hk, hr]
    · intro k v hk hr hv
      cases v with
      | null => exact absurd rfl hv
      | str s => simp [hk, hr]
      | num n => simp [hk, hr]

/-- Witness for C10 at a concrete record lacking `ccb_session_id`. -/
theorem upsertRegistry_merges_witness :
    rvalTruthy ((fun _ => none : String → Option RVal) "ccb_session_id") = false ∧
    upsertRegistry (fun _ => none) (fun _ => none) 7 = none :=
  ⟨by decide, upsertRegistry_merges.1 (fun _ => none) (fun _ => none) 7 (by decide)⟩

/-- The exit-code/done_seen relation every result of the wait loop satisfies. -/
def exitInv (r : SResult) : Prop :=
  (r.exitCode = 0 ↔ r.done_seen = true) ∧ (r.exitCode = 2 → r.done_seen = false)

theorem mkSRes_exitInv (reqId : List Char) (s : SState) : exitInv (mkSRes reqId s) := by
  unfold exitInv mkSRes
  cases hd : s.done_seen <;> simp [hd]

theorem paneDied_exitInv (s : SState) : exitInv (paneDiedRes s) := by
  simp [exitInv, paneDiedRes]

theorem fatal_exitInv (msg : List Char) : exitInv (fatalRes msg) := by
  simp [exitInv, fatalRes]

theorem runStructured_exitInv (reqId : List Char) (deadline : Option Int)
    (cg g pi tb : Int) :
    ∀ (ticks : List STick) (s : SState) (r : SResult),
      runStructured reqId deadline cg g pi tb ticks s = some r → exitInv r := by
  intro ticks
  induction ticks with
  | nil =>
    intro s r h
    simp [runStructured] at h
  | cons tick rest ih =>
    intro s r h
    simp only [runStructured] at h
    split_ifs at h <;>
      first
        | (have he := Option.some.inj h; subst he; exact mkSRes_exitInv reqId _)
        | (have he := Option.some.inj h; subst he; exact paneDied_exitInv _)
        | exact ih _ _ h

theorem runStructured_none_no_timeout (reqId : List Char) (cg g pi tb : Int) :
    ∀ (ticks : List STick) (s : SState) (r : SResult),
      runStructured reqId none cg g pi tb ticks s = some r → r.exitCode ≠ 2 := by
  intro ticks
  induction ticks with
  | nil =>
    intro s r h
    simp [runStructured] at h
  | cons tick rest ih =>
    intro s r h
    simp only [runStructured] at h
    split_ifs at h <;>
      (try exact ih _ _ h) <;>
      (have he := Option.some.inj h
       subst he
       simp_all [deadlineHit, paneDiedRes, mkSRes])

/-- Claim C4: the deadline is absent exactly when the timeout is negative
(otherwise it is start plus timeout); a missing session descriptor, pane or
backend yields exit code 1 with done_seen false; every finished request has
exit code 0 exactly when DONE was seen, exit code 2 only without DONE; and
with a negative timeout the request can never finish with exit code 2. -/
theorem c4_exit_codes :
    (∀ now t : Int,
      (mkDeadline now t = none ↔ t < 0) ∧ (0 ≤ t → mkDeadline now t = some (now + t))) ∧
    (∀ (reqId : List Char) (env : HEnv),
      env.sessionFound = false ∨ env.paneOk = false ∨ env.backendOk = false →
      ∃ r, handleTaskModel reqId env = some r ∧ r.exitCode = 1 ∧ r.done_seen = false) ∧
    (∀ (reqId : List Char) (env : HEnv) (r : SResult),
      handleTaskModel reqId env = some r →
        (r.exitCode = 0 ↔ r.done_seen = true) ∧ (r.exitCode = 2 → r.done_seen = false)) ∧
    (∀ (reqId : List Char) (env : HEnv) (r : SResult),
      env.timeoutMs < 0 → handleTaskModel reqId env = some r → r.exitCode ≠ 2) := by
  refine ⟨?_, ?_, ?_, ?_⟩
  · intro now t
    constructor
    · unfold mkDeadline
      split_ifs with h <;> simp [h]
    · intro h
      unfold mkDeadline
      split_ifs with h2
      · omega
      · rfl
  · intro reqId env h
    unfold handleTaskModel
    by_cases hs : env.sessionFound
    · by_cases hp : env.paneOk
      · by_cases hb : env.backendOk
        · rcases h with h | h | h
          · rw [h] at hs; exact absurd hs (by simp)
          · rw [h] at hp; exact absurd hp (by simp)
          · rw [h] at hb; exact absurd hb (by simp)
        · exact ⟨fatalRes (chars "Terminal backend not available"),
            by simp [hs, hp, hb], rfl, rfl⟩
      · exact ⟨fatalRes (chars "Session pane not available"),
          by simp [hs, hp], rfl, rfl⟩
    · exact ⟨fatalRes (chars "No active Claude session found for work_dir."),
        by simp [hs], rfl, rfl⟩
  · intro reqId env r h
    unfold handleTaskModel at h
    split_ifs at h <;>
      first
        | (have he := Option.some.inj h; subst he; exact fatal_exitInv _)
        | exact runStructured_exitInv reqId _ _ _ _ _ _ _ _ h
  · intro reqId env r ht h
    unfold handleTaskModel at h
    have hd : mkDeadline env.now0 env.timeoutMs = none := by
      simp [mkDeadline, ht]
    split_ifs at h <;>
      first
        | (have he := Option.some.inj h; subst he; simp [fatalRes])
        | (rw [hd] at h; exact runStructured_none_no_timeout reqId _ _ _ _ _ _ _ h)

/-- Witness for C4: a concrete request whose single poll delivers the
anchor and a DONE chunk finishes with exit code 0 and done_seen. -/
theorem c4_exit_codes_witness :
    handleTaskModel (chars "w4")
        { sessionFound := true, paneOk := true, backendOk := true, now0 := 0
          timeoutMs := 300000, tailBytes := defaultTailBytes
          ticks := [{ tTop := 0, alive := true
                      events := [(SRole.user, reqMarker (chars "w4")),
                                 (SRole.assistant, doneMarker (chars "w4"))]
                      tAfter := 100, hintKnown := false, hintSize := 0 }] }
      = some { exitCode := 0, reply := [], done_seen := true, anchor_seen := true
               fallback_scan := false, rebinds := 0 } ∧
    ((0 : Nat) = 0 ↔ true = true) :=
  ⟨by decide,
    (c4_exit_codes.2.2.1 (chars "w4")
      { sessionFound := true, paneOk := true, backendOk := true, now0 := 0
        timeoutMs := 300000, tailBytes := defaultTailBytes
        ticks := [{ tTop := 0, alive := true
                    events := [(SRole.user, reqMarker (chars "w4")),
                               (SRole.assistant, doneMarker (chars "w4"))]
                    tAfter := 100, hintKnown := false, hintSize := 0 }] }
      { exitCode := 0, reply := [], done_seen := true, anchor_seen := true
        fallback_scan := false, rebinds := 0 } (by decide)).1⟩

/-- The rebind-counting invariant of the structured wait loop. -/
def rebindInv (s : SState) : Prop :=
  (s.rebounded = false → s.rebinds = 0) ∧
  (s.rebounded = true → s.rebinds = 1 ∧ s.fallback_scan = true)

theorem stepEvents_rebind_frame (reqId : List Char) (cg tAfter : Int) :
    ∀ (evs : List (SRole × List Char)) (s : SState),
      (stepEvents reqId cg tAfter evs s).rebounded = s.rebounded ∧
      (stepEvents reqId cg tAfter evs s).rebinds = s.rebinds ∧
      (stepEvents reqId cg tAfter evs s).fallback_scan = s.fallback_scan := by
  intro evs
  induction evs with
  | nil => intro s; simp [stepEvents]
  | cons ev rest ih =>
    intro s
    obtain ⟨role, text⟩ := ev
    cases role <;> simp only [stepEvents] <;> (try split_ifs) <;>
      first
        | exact ih _
        | simp

theorem stepEvents_rebindInv (reqId : List Char) (cg tAfter : Int)
    (evs : List (SRole × List Char)) (s : SState) (h : rebindInv s) :
    rebindInv (stepEvents reqId cg tAfter evs s) := by
  obtain ⟨hf, hr, hb⟩ := stepEvents_rebind_frame reqId cg tAfter evs s
  unfold rebindInv at h ⊢
  rw [hf, hr, hb]
  exact h

theorem rebindState_rebindInv (g tb : Int) (tick : STick) (s : SState)
    (h : rebindInv s) : rebindInv (rebindState g tb tick s) := by
  unfold rebindState
  split_ifs with hc
  · have hreb : s.rebounded = false := by
      cases hx : s.rebounded
      · rfl
      · rw [hx] at hc; simp at hc
    unfold rebindInv at h ⊢
    simp [h.1 hreb]
  · exact h

theorem runStructured_rebinds (reqId : List Char) (deadline : Option Int)
    (cg g pi tb : Int) :
    ∀ (ticks : List STick) (s : SState) (r : SResult), rebindInv s →
      runStructured reqId deadline cg g pi tb ticks s = some r →
      r.rebinds ≤ 1 ∧ (r.rebinds = 1 → r.fallback_scan = true) := by
  intro ticks
  induction ticks with
  | nil =>
    intro s r _ h
    simp [runStructured] at h
  | cons tick rest ih =>
    intro s r hinv h
    have hres : ∀ s' : SState, rebindInv s' →
        r.rebinds = s'.rebinds → r.fallback_scan = s'.fallback_scan →
        r.rebinds ≤ 1 ∧ (r.rebinds = 1 → r.fallback_scan = true) := by
      intro s' hinv' h1 h2
      rw [h1, h2]
      cases hx : s'.rebounded
      · simp [hinv'.1 hx]
      · simp [(hinv'.2 hx).1, (hinv'.2 hx).2]
    have hinv1 : ∀ b : Int, rebindInv { s with lastPaneCheck := b } := by
      intro b
      exact hinv
    simp only [runStructured] at h
    split_ifs at h <;>
      first
        | (have he := Option.some.inj h
           subst he
           first
             | exact hres s hinv rfl rfl
             | exact hres _ (hinv1 _) rfl rfl
             | exact hres _ (stepEvents_rebindInv _ _ _ _ _ hinv) rfl rfl
             | exact hres _ (stepEvents_rebindInv _ _ _ _ _ (hinv1 _)) rfl rfl)
        | exact ih _ _ (rebindState_rebindInv _ _ _ _ hinv) h
        | exact ih _ _ (rebindState_rebindInv _ _ _ _ (hinv1 _)) h
        | exact ih _ _ (stepEvents_rebindInv _ _ _ _ _ hinv) h
        | exact ih _ _ (stepEvents_rebindInv _ _ _ _ _ (hinv1 _)) h

/-- Claim C6: the structured loop rebinds at most once per request; the
rebind step fires only on an empty poll before the anchor once the grace
deadline (1.5 seconds after the loop starts when the overall deadline
allows) has passed, and it then binds a reader without the sessions index,
sets the cursor offset to `max(0, file_size - tail_bytes)` with the tail
defaulting to 2 MiB, and marks `fallback_scan`, which the returned result
reports. -/
theorem c6_rebind_once :
    (∀ (reqId : List Char) (deadline : Option Int) (cg g pi tb now : Int)
       (ticks : List STick) (r : SResult),
      runStructured reqId deadline cg g pi tb ticks (initSState now) = some r →
        r.rebinds ≤ 1 ∧ (r.rebinds = 1 → r.fallback_scan = true)) ∧
    (∀ (g tb : Int) (tick : STick) (s : SState),
      s.rebounded = false → s.anchor_seen = false → g ≤ tick.tAfter →
        rebindState g tb tick s =
          { s with readerUseIndex := false
                   cursorOffset := tailStateOffset tick.hintKnown tick.hintSize tb
                   fallback_scan := true, rebounded := true, rebinds := s.rebinds + 1 }) ∧
    (∀ (g tb : Int) (tick : STick) (s : SState),
      s.rebounded = true → rebindState g tb tick s = s) ∧
    (∀ size tb : Int, 0 ≤ tb →
      tailStateOffset true size tb = max 0 (size - tb) ∧ tailStateOffset false size tb = 0) ∧
    (defaultTailBytes = 2 * 1024 * 1024 ∧
      ∀ now : Int, anchorGraceOf none now = now + 1500 ∧
        ∀ d : Int, now + 1500 ≤ d → anchorGraceOf (some d) now = now + 1500) := by
  refine ⟨?_, ?_, ?_, ?_, ?_⟩
  · intro reqId deadline cg g pi tb now ticks r h
    refine runStructured_rebinds reqId deadline cg g pi tb ticks (initSState now) r ?_ h
    unfold rebindInv initSState
    simp
  · intro g tb tick s h1 h2 h3
    unfold rebindState
    simp [h1, h2, h3]
  · intro g tb tick s h1
    unfold rebindState
    simp [h1]
  · intro size tb h
    unfold tailStateOffset
    constructor
    · simp [max_eq_right h]
    · rfl
  · refine ⟨rfl, ?_⟩
    intro now
    constructor
    · rfl
    · intro d hd
      simp only [anchorGraceOf]
      omega

/-- Witness for C6: a run with one empty poll past the grace deadline and
then a DONE poll rebinds exactly once and reports fallback_scan. -/
theorem c6_rebind_once_witness :
    (runStructured (chars "w6") (mkDeadline 0 300000) 2000 1500 2000 defaultTailBytes
        [{ tTop := 0, alive := true, events := [], tAfter := 1600
           hintKnown := true, hintSize := 100 },
         { tTop := 1700, alive := true
           events := [(SRole.user, reqMarker (chars "w6")),
                      (SRole.assistant, doneMarker (chars "w6"))]
           tAfter := 1800, hintKnown := true, hintSize := 100 }]
        (initSState 0)
      = some { exitCode := 0, reply := [], done_seen := true, anchor_seen := true
               fallback_scan := true, rebinds := 1 }) ∧
    ((1 : Nat) ≤ 1 ∧ ((1 : Nat) = 1 → true = true)) :=
  ⟨by decide,
    c6_rebind_once.1 (chars "w6") (mkDeadline 0 300000) 2000 1500 2000 defaultTailBytes 0
      [{ tTop := 0, alive := true, events := [], tAfter := 1600
         hintKnown := true, hintSize := 100 },
       { tTop := 1700, alive := true
         events := [(SRole.user, reqMarker (chars "w6")),
                    (SRole.assistant, doneMarker (chars "w6"))]
         tAfter := 1800, hintKnown := true, hintSize := 100 }]
      { exitCode := 0, reply := [], done_seen := true, anchor_seen := true
        fallback_scan := true, rebinds := 1 } (by decide)⟩
theorem splitNl_ne_nil (s : List Char) : splitNl s ≠ [] := by
  cases s with
  | nil => simp [splitNl]
  | cons c rest =>
    by_cases hc : c = '\n'
    · simp [splitNl, hc]
    · simp only [splitNl, hc, if_neg, not_false_iff]
      cases hsp : splitNl rest <;> simp

theorem splitNl_cons_nl (rest : List Char) : splitNl ('\n' :: rest) = [] :: splitNl rest := by
  simp [splitNl]

theorem splitNl_cons_ne {c : Char} (rest : List Char) (hc : c ≠ '\n') :
    splitNl (c :: rest) =
      match splitNl rest with
      | [] => [[c]]
      | h :: t => (c :: h) :: t := by
  simp [splitNl, hc]

theorem getLastD_irrel {l : List (List Char)} (h : l ≠ []) (d1 d2 : List Char) :
    l.getLastD d1 = l.getLastD d2 := by
  rw [List.getLastD_eq_getLast?, List.getLastD_eq_getLast?, List.getLast?_eq_getLast l h]
  rfl

theorem splitNl_append (a b : List Char) :
    splitNl (a ++ b) =
      (splitNl a).dropLast ++
        (splitNl b).modifyHead (fun h => (splitNl a).getLastD [] ++ h) := by
  induction a with
  | nil => cases hb : splitNl b <;> simp [splitNl, hb]
  | cons c a' ih =>
    rw [List.cons_append]
    by_cases hc : c = '\n'
    · subst hc
      rw [splitNl_cons_nl, splitNl_cons_nl, ih,
        List.dropLast_cons_of_ne_nil (splitNl_ne_nil a'), List.getLastD_cons, List.cons_append]
    · rw [splitNl_cons_ne _ hc, splitNl_cons_ne _ hc, ih]
      cases hsp : splitNl a' with
      | nil => exact absurd hsp (splitNl_ne_nil a')
      | cons x t =>
        cases hb : splitNl b with
        | nil => exact absurd hb (splitNl_ne_nil b)
        | cons hb0 tb =>
          cases t with
          | nil => simp
          | cons y t2 =>
            simp only [List.dropLast_cons_of_ne_nil
                (by simp : (y :: t2) ≠ ([] : List (List Char))),
              List.getLastD_cons, List.modifyHead_cons, List.cons_append]

theorem getLastD_append_right {α : Type} {x y : List α} (h : y ≠ []) (d : α) :
    (x ++ y).getLastD d = y.getLastD d := by
  rw [List.getLastD_eq_getLast?, List.getLastD_eq_getLast?, List.getLast?_append]
  cases hy : y.getLast? with
  | none => exact absurd (List.getLast?_eq_none_iff.mp hy) h
  | some a => rfl

theorem splitNl_of_not_mem_nl {a : List Char} (h : '\n' ∉ a) : splitNl a = [a] := by
  induction a with
  | nil => rfl
  | cons c rest ih =>
    have hc : c ≠ '\n' := fun hx => h (hx ▸ List.mem_cons_self c rest)
    rw [splitNl_cons_ne _ hc, ih (fun hx => h (List.mem_cons_of_mem c hx))]

theorem nl_not_mem_lastPiece (s : List Char) : '\n' ∉ (splitNl s).getLastD [] := by
  induction s with
  | nil => simp [splitNl]
  | cons c rest ih =>
    by_cases hc : c = '\n'
    · subst hc
      rw [splitNl_cons_nl, List.getLastD_cons]
      exact ih
    · rw [splitNl_cons_ne _ hc]
      cases hsp : splitNl rest with
      | nil => exact absurd hsp (splitNl_ne_nil rest)
      | cons x t =>
        rw [hsp] at ih
        cases t with
        | nil =>
          simp only [List.getLastD_cons, List.getLastD_nil] at ih ⊢
          intro hm
          rcases List.mem_cons.mp hm with hm | hm
          · exact hc hm.symm
          · exact ih hm
        | cons y t2 =>
          simp only [List.getLastD_cons] at ih ⊢
          exact ih

theorem mem_lastPiece_mem {c : Char} {s : List Char}
    (h : c ∈ (splitNl s).getLastD []) : c ∈ s := by
  induction s with
  | nil => simp [splitNl] at h
  | cons a rest ih =>
    by_cases ha : a = '\n'
    · subst ha
      rw [splitNl_cons_nl, List.getLastD_cons] at h
      exact List.mem_cons_of_mem _ (ih h)
    · rw [splitNl_cons_ne _ ha] at h
      cases hsp : splitNl rest with
      | nil => exact absurd hsp (splitNl_ne_nil rest)
      | cons x t =>
        rw [hsp] at h ih
        cases t with
        | nil =>
          simp only [List.getLastD_cons, List.getLastD_nil] at h ih
          rcases List.mem_cons.mp h with hm | hm
          · exact hm ▸ List.mem_cons_self _ _
          · exact List.mem_cons_of_mem _ (ih hm)
        | cons y t2 =>
          simp only [List.getLastD_cons] at h ih
          exact List.mem_cons_of_mem _ (ih h)

theorem lastPiece_ne_nil {s : List Char} (h1 : s ≠ []) (h2 : s.getLast? ≠ some '\n') :
    (splitNl s).getLastD [] ≠ [] := by
  induction s with
  | nil => exact absurd rfl h1
  | cons c rest ih =>
    cases hrest : rest with
    | nil =>
      subst hrest
      have hc : c ≠ '\n' := by
        intro hx
        exact h2 (by simp [hx])
      rw [splitNl_cons_ne _ hc]
      simp [splitNl]
    | cons r rest2 =>
      have h2' : rest.getLast? ≠ some '\n' := by
        rw [hrest] at h2 ⊢
        rwa [List.getLast?_cons_cons] at h2
      have ihr := ih (by simp [hrest]) h2'
      rw [hrest] at ihr
      by_cases hc : c = '\n'
      · subst hc
        rw [splitNl_cons_nl, List.getLastD_cons]
        exact ihr
      · rw [splitNl_cons_ne _ hc]
        cases hsp : splitNl (r :: rest2) with
        | nil => exact absurd hsp (splitNl_ne_nil _)
        | cons x t =>
          rw [hsp] at ihr
          cases t with
          | nil => simp
          | cons y t2 =>
            simp only [List.getLastD_cons] at ihr ⊢
            exact ihr

theorem lastPiece_of_endsNl {s : List Char} (h : s.getLast? = some '\n') :
    (splitNl s).getLastD [] = [] := by
  have hne : s ≠ [] := by
    intro hx
    rw [hx] at h
    simp at h
  have hdec : s.dropLast ++ ['\n'] = s := by
    have := List.dropLast_append_getLast hne
    rw [List.getLast?_eq_getLast s hne] at h
    have hl : s.getLast hne = '\n' := by
      injection h
    rw [hl] at this
    exact this
  rw [← hdec, splitNl_append]
  have hsp : splitNl ['\n'] = [[], []] := rfl
  rw [hsp]
  rw [getLastD_append_right (by simp) []]
  rfl

theorem bufIncomplete_iff {s : List Char} :
    bufIncomplete s = true ↔ s ≠ [] ∧ s.getLast? ≠ some '\n' := by
  unfold bufIncomplete
  simp

theorem bufIncomplete_append {b e : List Char} (he : e ≠ []) :
    bufIncomplete (b ++ e) = bufIncomplete e := by
  unfold bufIncomplete
  rw [List.getLast?_append]
  cases hy : e.getLast? with
  | none => exact absurd (List.getLast?_eq_none_iff.mp hy) he
  | some a => simp [he, Option.or]

theorem dropLast_append_getLastD {α : Type} {l : List α} (h : l ≠ []) (d : α) :
    l.dropLast ++ [l.getLastD d] = l := by
  rw [List.getLastD_eq_getLast?, List.getLast?_eq_getLast l h]
  exact List.dropLast_append_getLast h

theorem modifyHead_nil_append2 (l : List (List Char)) :
    l.modifyHead (fun h => [] ++ h) = l := by
  cases l <;> simp

theorem lastPiece_complete {s : List Char} (h : bufIncomplete s = false) :
    (splitNl s).getLastD [] = [] := by
  by_cases hs : s = []
  · subst hs
    rfl
  · have : s.getLast? = some '\n' := by
      unfold bufIncomplete at h
      simp [hs] at h
      exact h
    exact lastPiece_of_endsNl this

theorem getLast?_ne_nl_of_not_mem {K : List Char} (h : '\n' ∉ K) :
    K.getLast? ≠ some '\n' := by
  intro hx
  cases hK : K with
  | nil => rw [hK] at hx; simp at hx
  | cons a rest =>
    have hne : K ≠ [] := by simp [hK]
    rw [List.getLast?_eq_getLast K hne] at hx
    have hmem := List.getLast_mem hne
    have : K.getLast hne = '\n' := by injection hx
    rw [this] at hmem
    exact h hmem

theorem emittedPieces_incomplete {s : List Char} (h : bufIncomplete s = true) :
    emittedPieces s = (splitNl s).dropLast := by
  unfold emittedPieces
  simp [h]

theorem emittedPieces_complete {s : List Char} (h : bufIncomplete s = false) :
    emittedPieces s = splitNl s := by
  unfold emittedPieces
  simp [h]

theorem carryPiece_incomplete {s : List Char} (h : bufIncomplete s = true) :
    carryPiece s = (splitNl s).getLastD [] := by
  unfold carryPiece
  simp [h]

theorem carryPiece_complete {s : List Char} (h : bufIncomplete s = false) :
    carryPiece s = [] := by
  unfold carryPiece
  simp [h]

theorem emit_shift_complete {b1 e : List Char} (hb : bufIncomplete b1 = false) (he : e ≠ []) :
    emittedPieces (b1 ++ e) = (splitNl b1).dropLast ++ emittedPieces e ∧
    carryPiece (b1 ++ e) = carryPiece e := by
  have hspl : splitNl (b1 ++ e) = (splitNl b1).dropLast ++ splitNl e := by
    rw [splitNl_append, lastPiece_complete hb, modifyHead_nil_append2]
  have hinc : bufIncomplete (b1 ++ e) = bufIncomplete e := bufIncomplete_append he
  constructor
  · cases hie : bufIncomplete e with
    | true =>
      rw [hie] at hinc
      rw [emittedPieces_incomplete hinc, emittedPieces_incomplete hie, hspl,
        List.dropLast_append_of_ne_nil _ (splitNl_ne_nil e)]
    | false =>
      rw [hie] at hinc
      rw [emittedPieces_complete hinc, emittedPieces_complete hie, hspl]
  · cases hie : bufIncomplete e with
    | true =>
      rw [hie] at hinc
      rw [carryPiece_incomplete hinc, carryPiece_incomplete hie, hspl,
        getLastD_append_right (splitNl_ne_nil e)]
    | false =>
      rw [hie] at hinc
      rw [carryPiece_complete hinc, carryPiece_complete hie]

theorem emit_shift_incomplete {b1 e : List Char} (hb : bufIncomplete b1 = true) (he : e ≠ []) :
    emittedPieces (b1 ++ e) = emittedPieces b1 ++ emittedPieces (carryPiece b1 ++ e) ∧
    carryPiece (b1 ++ e) = carryPiece (carryPiece b1 ++ e) := by
  obtain ⟨hbne, hbl⟩ := bufIncomplete_iff.mp hb
  have hK : carryPiece b1 = (splitNl b1).getLastD [] := carryPiece_incomplete hb
  have hKnl : '\n' ∉ carryPiece b1 := by
    rw [hK]
    exact nl_not_mem_lastPiece b1
  have hspl : splitNl (b1 ++ e) = (splitNl b1).dropLast ++ splitNl (carryPiece b1 ++ e) := by
    rw [splitNl_append (carryPiece b1) e, splitNl_of_not_mem_nl hKnl]
    rw [splitNl_append b1 e, hK]
    rfl
  have hincL : bufIncomplete (b1 ++ e) = bufIncomplete e := bufIncomplete_append he
  have hincR : bufIncomplete (carryPiece b1 ++ e) = bufIncomplete e := bufIncomplete_append he
  constructor
  · cases hie : bufIncomplete e with
    | true =>
      rw [hie] at hincL hincR
      rw [emittedPieces_incomplete hincL, emittedPieces_incomplete hincR,
        emittedPieces_incomplete hb, hspl,
        List.dropLast_append_of_ne_nil _ (splitNl_ne_nil _)]
    | false =>
      rw [hie] at hincL hincR
      rw [emittedPieces_complete hincL, emittedPieces_complete hincR,
        emittedPieces_incomplete hb, hspl]
  · cases hie : bufIncomplete e with
    | true =>
      rw [hie] at hincL hincR
      rw [carryPiece_incomplete hincL, carryPiece_incomplete hincR, hspl,
        getLastD_append_right (splitNl_ne_nil _)]
    | false =>
      rw [hie] at hincL hincR
      rw [carryPiece_complete hincL, carryPiece_complete hincR]

theorem filter_append_nil_elem (d : List (List Char)) (y : List (List Char)) :
    ((d ++ [([] : List Char)]) ++ y).filter (fun l => l ≠ []) =
      (d ++ y).filter (fun l => l ≠ []) := by
  simp [List.filter_append]

theorem emit_compose (b1 e : List Char) :
    ((emittedPieces b1 ++ emittedPieces (carryPiece b1 ++ e)).filter (fun l => l ≠ [])) =
      ((emittedPieces (b1 ++ e)).filter (fun l => l ≠ [])) ∧
    carryPiece (carryPiece b1 ++ e) = carryPiece (b1 ++ e) := by
  by_cases he : e = []
  · subst he
    rw [List.append_nil, List.append_nil]
    cases hb : bufIncomplete b1 with
    | true =>
      have hK : carryPiece b1 = (splitNl b1).getLastD [] := carryPiece_incomplete hb
      have hKnl : '\n' ∉ carryPiece b1 := by
        rw [hK]
        exact nl_not_mem_lastPiece b1
      obtain ⟨hbne, hbl⟩ := bufIncomplete_iff.mp hb
      have hKne : carryPiece b1 ≠ [] := by
        rw [hK]
        exact lastPiece_ne_nil hbne hbl
      have hKinc : bufIncomplete (carryPiece b1) = true :=
        bufIncomplete_iff.mpr ⟨hKne, getLast?_ne_nl_of_not_mem hKnl⟩
      have hKsplit : splitNl (carryPiece b1) = [carryPiece b1] := splitNl_of_not_mem_nl hKnl
      constructor
      · rw [emittedPieces_incomplete hKinc, hKsplit]
        simp
      · rw [carryPiece_incomplete hKinc, hKsplit]
        simp
    | false =>
      have hc : carryPiece b1 = [] := carryPiece_complete hb
      rw [hc]
      constructor
      · rw [emittedPieces_complete hb]
        have hdec : (splitNl b1).dropLast ++ [(splitNl b1).getLastD []] = splitNl b1 :=
          dropLast_append_getLastD (splitNl_ne_nil b1) []
        rw [lastPiece_complete hb] at hdec
        have hE : emittedPieces ([] : List Char) = [[]] := rfl
        rw [hE]
        conv_lhs => rw [← hdec]
        conv_rhs => rw [← hdec]
        simp [List.filter_append]
      · rfl
  · cases hb : bufIncomplete b1 with
    | true =>
      obtain ⟨h1, h2⟩ := emit_shift_incomplete hb he
      exact ⟨by rw [h1], h2.symm⟩
    | false =>
      obtain ⟨h1, h2⟩ := emit_shift_complete hb he
      have hc : carryPiece b1 = [] := carryPiece_complete hb
      constructor
      · rw [hc, List.nil_append, h1, emittedPieces_complete hb]
        have hdec : (splitNl b1).dropLast ++ [(splitNl b1).getLastD []] = splitNl b1 :=
          dropLast_append_getLastD (splitNl_ne_nil b1) []
        rw [lastPiece_complete hb] at hdec
        conv_lhs => rw [← hdec]
        exact filter_append_nil_elem _ _
      · rw [hc, List.nil_append, h2]

theorem normCr_append (a b : List Char) : normCr (a ++ b) = normCr a ++ normCr b :=
  List.map_append _ a b

theorem cr_not_mem_normCr (z : List Char) : '\r' ∉ normCr z := by
  intro h
  simp only [normCr] at h
  obtain ⟨c, _, hc⟩ := List.mem_map.mp h
  by_cases hcr : c = '\r'
  · rw [if_pos hcr] at hc
    exact absurd hc (by decide)
  · rw [if_neg hcr] at hc
    exact hcr hc

theorem normCr_of_no_cr {s : List Char} (h : '\r' ∉ s) : normCr s = s := by
  induction s with
  | nil => rfl
  | cons c rest ih =>
    simp only [List.mem_cons, not_or] at h
    have hc : c ≠ '\r' := fun hcc => h.1 hcc.symm
    simp only [normCr, List.map_cons, if_neg hc]
    exact congrArg (c :: ·) (ih h.2)

theorem normCr_idem_carry (z : List Char) :
    normCr (carryPiece (normCr z)) = carryPiece (normCr z) := by
  apply normCr_of_no_cr
  intro h
  have hmem : '\r' ∈ normCr z := by
    unfold carryPiece at h
    split_ifs at h
    · exact mem_lastPiece_mem h
    · simp at h
  exact cr_not_mem_normCr z hmem

theorem filter_map_clean (L : List (List Char)) :
    (L.map cleanOr).filter (fun l => l ≠ []) =
      ((L.filter (fun l => l ≠ [])).map cleanOr).filter (fun l => l ≠ []) := by
  induction L with
  | nil => rfl
  | cons h t ih =>
    by_cases hh : h = []
    · subst hh
      simpa [cleanOr] using ih
    · by_cases hc : cleanOr h = []
      · simp [hh, hc, List.filter_cons]
        simpa using ih
      · simp [hh, hc, List.filter_cons]
        simpa using ih

theorem filter_map_eq_of_filter_eq {A B : List (List Char)}
    (h : A.filter (fun l => l ≠ []) = B.filter (fun l => l ≠ [])) :
    (A.map cleanOr).filter (fun l => l ≠ []) =
      (B.map cleanOr).filter (fun l => l ≠ []) := by
  rw [filter_map_clean A, filter_map_clean B, h]

theorem readPaneLog_reset (f : List Char) (off : Nat) (carry : List Char)
    (h : f.length < off) : readPaneLog f off carry = readPaneLog f 0 [] := by
  simp [readPaneLog, h]

theorem readPaneLog_offset (f : List Char) (off : Nat) (carry : List Char)
    (h : off ≤ f.length) : (readPaneLog f off carry).offset = f.length := by
  have hn : ¬ f.length < off := not_lt.mpr h
  simp only [readPaneLog, if_neg hn, List.length_drop]
  omega

theorem readPaneLog_out (f : List Char) (off : Nat) (carry : List Char)
    (h : ¬ f.length < off) :
    (readPaneLog f off carry).out =
      (emittedPieces (normCr (carry ++ f.drop off))).map cleanOr := by
  simp [readPaneLog, h]

theorem readPaneLog_carry (f : List Char) (off : Nat) (carry : List Char)
    (h : ¬ f.length < off) :
    (readPaneLog f off carry).carry = carryPiece (normCr (carry ++ f.drop off)) := by
  simp [readPaneLog, h]

theorem readPaneLog_compose (f1 f2 : List Char) (off : Nat) (carry : List Char)
    (hle : off ≤ f1.length) (hpfx : f1 <+: f2) :
    (((readPaneLog f1 off carry).out ++
        (readPaneLog f2 (readPaneLog f1 off carry).offset
          (readPaneLog f1 off carry).carry).out).filter (fun l => l ≠ []) =
      ((readPaneLog f2 off carry).out).filter (fun l => l ≠ [])) ∧
    (readPaneLog f2 (readPaneLog f1 off carry).offset
        (readPaneLog f1 off carry).carry).carry =
      (readPaneLog f2 off carry).carry ∧
    (readPaneLog f2 (readPaneLog f1 off carry).offset
        (readPaneLog f1 off carry).carry).offset =
      (readPaneLog f2 off carry).offset := by
  obtain ⟨t, rfl⟩ := hpfx
  have hnl1 : ¬ f1.length < off := not_lt.mpr hle
  have hle2 : off ≤ (f1 ++ t).length := by
    rw [List.length_append]
    omega
  have hnl3 : ¬ (f1 ++ t).length < off := not_lt.mpr hle2
  have hleF : f1.length ≤ (f1 ++ t).length := by
    rw [List.length_append]
    omega
  have hnl2 : ¬ (f1 ++ t).length < f1.length := not_lt.mpr hleF
  have h1off : (readPaneLog f1 off carry).offset = f1.length :=
    readPaneLog_offset f1 off carry hle
  have h1carry : (readPaneLog f1 off carry).carry =
      carryPiece (normCr (carry ++ f1.drop off)) :=
    readPaneLog_carry f1 off carry hnl1
  have h1out : (readPaneLog f1 off carry).out =
      (emittedPieces (normCr (carry ++ f1.drop off))).map cleanOr :=
    readPaneLog_out f1 off carry hnl1
  have hdrop2 : (f1 ++ t).drop f1.length = t := List.drop_left f1 t
  have hdrop3 : (f1 ++ t).drop off = f1.drop off ++ t := by
    rw [List.drop_append_eq_append_drop]
    have hz : off - f1.length = 0 := by omega
    rw [hz, List.drop_zero]
  have hbuf2 : normCr (carryPiece (normCr (carry ++ f1.drop off)) ++ t) =
      carryPiece (normCr (carry ++ f1.drop off)) ++ normCr t := by
    rw [normCr_append, normCr_idem_carry]
  have hbuf3 : normCr (carry ++ (f1.drop off ++ t)) =
      normCr (carry ++ f1.drop off) ++ normCr t := by
    rw [← List.append_assoc, normCr_append]
  have EC := emit_compose (normCr (carry ++ f1.drop off)) (normCr t)
  refine ⟨?_, ?_, ?_⟩
  · rw [h1off, h1carry, h1out,
      readPaneLog_out (f1 ++ t) f1.length _ hnl2,
      readPaneLog_out (f1 ++ t) off carry hnl3,
      hdrop2, hdrop3, hbuf2, hbuf3, ← List.map_append]
    exact filter_map_eq_of_filter_eq EC.1
  · rw [h1off, h1carry,
      readPaneLog_carry (f1 ++ t) f1.length _ hnl2,
      readPaneLog_carry (f1 ++ t) off carry hnl3,
      hdrop2, hdrop3, hbuf2, hbuf3]
    exact EC.2
  · rw [h1off,
      readPaneLog_offset (f1 ++ t) f1.length _ hleF,
      readPaneLog_offset (f1 ++ t) off carry hle2]

/-- Claim C7 counterexample: successive polls do not emit exactly the
one-shot lines. Polling while the file holds the two bytes of an "a" line
with its newline emits the line and a spurious empty line (the split of a
newline-terminated buffer ends in an empty piece, and the reader emits every
complete piece); after the file grows by one byte the second poll emits
nothing and carries it. A single read of the grown file from offset 0 emits
only the first line, so the concatenated poll output differs from the
one-shot output by the extra empty line. -/
theorem c7_counterexample :
    (readPaneLog (chars "a\n") 0 []).out ++
        (readPaneLog (chars "a\nb") (readPaneLog (chars "a\n") 0 []).offset
          (readPaneLog (chars "a\n") 0 []).carry).out ≠
      (readPaneLog (chars "a\nb") 0 []).out := by decide

/-- Claim C7 (amended): (1) if the bound file's current size is smaller than
the stored offset, the read restarts from offset 0 with carry cleared;
(2) otherwise it reads exactly the bytes from the offset to the end of the
file, returning the new offset as the old offset plus bytes read, that is
the file length; (3) over a file that only grows, two successive polls agree
with a single poll on the nonempty emitted lines, the carry and the offset —
in file order with no duplicates and no gaps among nonempty lines, while a
poll whose buffer ends at a newline additionally emits one spurious empty
line that the single poll does not. -/
theorem c7_amended :
    (∀ (f : List Char) (off : Nat) (carry : List Char), f.length < off →
        readPaneLog f off carry = readPaneLog f 0 []) ∧
    (∀ (f : List Char) (off : Nat) (carry : List Char), off ≤ f.length →
        (readPaneLog f off carry).offset = f.length) ∧
    (∀ (f1 f2 : List Char) (off : Nat) (carry : List Char),
        off ≤ f1.length → f1 <+: f2 →
        (((readPaneLog f1 off carry).out ++
            (readPaneLog f2 (readPaneLog f1 off carry).offset
              (readPaneLog f1 off carry).carry).out).filter (fun l => l ≠ []) =
          ((readPaneLog f2 off carry).out).filter (fun l => l ≠ [])) ∧
        (readPaneLog f2 (readPaneLog f1 off carry).offset
            (readPaneLog f1 off carry).carry).carry =
          (readPaneLog f2 off carry).carry ∧
        (readPaneLog f2 (readPaneLog f1 off carry).offset
            (readPaneLog f1 off carry).carry).offset =
          (readPaneLog f2 off carry).offset) :=
  ⟨readPaneLog_reset, readPaneLog_offset, readPaneLog_compose⟩

/-- Claim C7 witness: the amended theorem applied at concrete inputs — a
shrunken file resets the cursor, a one-line file read from inside yields its
length as the new offset, and the two-poll composition over a growing file
matches the one-shot read on nonempty lines. -/
theorem c7_amended_witness :
    readPaneLog (chars "a") 2 (chars "x") = readPaneLog (chars "a") 0 [] ∧
    (readPaneLog (chars "a\n") 1 []).offset = (chars "a\n").length ∧
    ((readPaneLog (chars "a\n") 0 []).out ++
        (readPaneLog (chars "a\nb") (readPaneLog (chars "a\n") 0 []).offset
          (readPaneLog (chars "a\n") 0 []).carry).out).filter (fun l => l ≠ []) =
      ((readPaneLog (chars "a\nb") 0 []).out).filter (fun l => l ≠ []) :=
  ⟨c7_amended.1 (chars "a") 2 (chars "x") (by decide),
   c7_amended.2.1 (chars "a\n") 1 [] (by decide),
   (c7_amended.2.2 (chars "a\n") (chars "a\nb") 0 [] (by decide)
     ⟨chars "b", by decide⟩).1⟩
